import Mathlib

/-!
# Verification of the stellar-sdk endpoint codec and asset resource

A shallow embedding of the endpoint descriptors in
`src/client/src/endpoint/account.rs` (the five paginated collection
endpoints `Transactions`, `Effects`, `Operations`, `Payments`, `Offers`
together with their builder methods, `into_request` URI construction and
`TryFromUri` decoding) and of the asset resource in
`src/client/src/resources/asset.rs` (`AssetIdentifier`, its serde
serialize/deserialize pair, accessors, and `Asset` deserialization).

Strings are modelled by Lean `String` (a wrapper around `List Char`);
Rust `u32` values are modelled by `Nat` with the bound `2 ^ 32` made
explicit where it matters.  Fallible operations return `Except` /
`Option`, and a Rust `panic!` (from `Option::unwrap` / `Result::unwrap`
on the wrong constructor) is modelled by an explicit `panicked`
constructor.  The `Uri::from_str(&uri)?` step each `into_request`
performs on its constructed string - byte validation against the URI
grammar and truncation of everything from the first `#` as a fragment -
is modelled by `pathAndQueryFromStr?` on the path-and-query portion.
-/

namespace StellarSdk

/-! ## Character-list utilities

`breakAt c l` splits `l` at the first occurrence of `c`, dropping that
occurrence; it returns `none` when `c` does not occur.  This models how
an HTTP URI string is split into path-and-query at the first `?`, and
how a single `key=value` query pair is split at its first `=`. -/

def breakAt (c : Char) : List Char → Option (List Char × List Char)
  | [] => none
  | x :: xs =>
    if x = c then some ([], xs)
    else (breakAt c xs).map (fun p => (x :: p.1, p.2))

/-! ## Decimal numerals

`natToChars` renders a `Nat` in decimal exactly as Rust's `Display` for
unsigned integers does (used by `format!("limit={}", limit)`).  It is
written with explicit fuel so that it is structurally recursive.
`parseNat?` parses a nonempty all-digit string, as Rust's
`u32::from_str` does for in-range inputs; `parseU32?` additionally
enforces the `u32` range. -/

def digitToChar (d : Nat) : Char := Char.ofNat (48 + d)

def natToCharsFuel : Nat → Nat → List Char
  | 0, _ => []
  | fuel + 1, n =>
    if n < 10 then [digitToChar n]
    else natToCharsFuel fuel (n / 10) ++ [digitToChar (n % 10)]

def natToChars (n : Nat) : List Char := natToCharsFuel (n + 1) n

def natStr (n : Nat) : String := String.mk (natToChars n)

def charToDigit? (c : Char) : Option Nat :=
  if 48 ≤ c.toNat ∧ c.toNat ≤ 57 then some (c.toNat - 48) else none

def parseNatAux : List Char → Nat → Option Nat
  | [], acc => some acc
  | c :: cs, acc => (charToDigit? c).bind (fun d => parseNatAux cs (10 * acc + d))

def parseNat? (l : List Char) : Option Nat :=
  if l.isEmpty then none else parseNatAux l 0

def parseU32? (s : String) : Option Nat :=
  (parseNat? s.data).bind (fun n => if n < 2 ^ 32 then some n else none)

/-! ## Direction

`endpoint::Direction` (from the endpoint module): its `Display`
implementation renders `asc` / `desc` (observed in
`Transactions::into_request` via `order.to_string()` and in the unit
tests), and its `FromStr` parses those two strings. -/

inductive Direction
  | Asc
  | Desc
deriving DecidableEq, Repr

def Direction.render : Direction → String
  | .Asc => "asc"
  | .Desc => "desc"

/-- Modelled from the spec: `Direction`'s `FromStr` (in the endpoint
module, not under `src/`) accepts exactly the two rendered forms
`asc` and `desc` (`order=<asc|desc>` in §6's wire format). -/
def Direction.fromStr? (s : String) : Option Direction :=
  if s = "asc" then some .Asc
  else if s = "desc" then some .Desc
  else none

/-! ## Query parameters and the `uri` module

`UriWrap` is the repository's wrapper around a parsed `http::Uri`: the
path split into segments and the query split into `key=value` pairs. -/

inductive UriError
  | invalidPath
deriving DecidableEq, Repr

structure UriWrap where
  path : List String
  params : List (String × String)
deriving DecidableEq, Repr

/-- Modelled from the spec: one `key=value` query piece - split at the
first `=` into key and value (a piece with no `=` is a key with empty
value); an empty piece is ignored. -/
def parsePiece? (piece : List Char) : Option (String × String) :=
  if piece.isEmpty then none
  else
    match breakAt '=' piece with
    | some kv => some (String.mk kv.1, String.mk kv.2)
    | none => some (String.mk piece, "")

/-- Modelled from the spec: the `uri` module's query-parameter parsing
(not under `src/`).  The query is split on `&` and each nonempty piece
becomes a `key=value` pair. -/
def parseParams (q : List Char) : List (String × String) :=
  (q.splitOn '&').filterMap parsePiece?

/-- Modelled from the spec: the `uri` module's `UriWrap` construction
(not under `src/`).  A URI's path-and-query is split at the first `?`
(as `http::Uri` does); the path is split on `/` with empty segments
dropped, and the query becomes the parameter list. -/
def UriWrap.ofString (s : String) : UriWrap :=
  match breakAt '?' s.data with
  | some pq =>
    { path := ((pq.1.splitOn '/').filter (fun l => !l.isEmpty)).map String.mk
      params := parseParams pq.2 }
  | none =>
    { path := ((s.data.splitOn '/').filter (fun l => !l.isEmpty)).map String.mk
      params := [] }

/-- Modelled from the spec: `Params::get_parse::<String>` - looks up the
first occurrence of `key`; parsing a `String` never fails, so `.ok()`
yields `some` exactly when the key is present. -/
def getStr (params : List (String × String)) (key : String) : Option String :=
  List.lookup key params

/-- Modelled from the spec: `Params::get_parse::<Direction>().ok()`. -/
def getDirection (params : List (String × String)) (key : String) : Option Direction :=
  (List.lookup key params).bind Direction.fromStr?

/-- Modelled from the spec: `Params::get_parse::<u32>().ok()` - a value
that fails to parse as a `u32` is treated as absent (§4.2 leniency). -/
def getU32 (params : List (String × String)) (key : String) : Option Nat :=
  (List.lookup key params).bind parseU32?

/-- The query component of a path-and-query string: everything after
its first `?`; `none` when there is no `?`.  On strings that
`Uri::from_str` accepts and preserves - no `#` and no URI-invalid byte,
see `pathAndQueryFromStr?` below - this is exactly what
`http::Uri::query()` reports for the parsed URI. -/
def uriQuery (s : String) : Option String :=
  (breakAt '?' s.data).map (fun pq => String.mk pq.2)

/-! ## The `Uri::from_str` step

Every `into_request` in the source passes its constructed string
through `Uri::from_str(&uri)?` (the `http` crate), which validates the
bytes of the path-and-query against the URI grammar - a byte outside it
makes the parse fail with `InvalidUri` (§4.2) - and treats everything
from the first `#` as a fragment, which `Uri::path()`/`Uri::query()` no
longer report.  `pathAndQueryFromStr?` models that step on the
path-and-query portion: `none` is the `InvalidUri` failure, and a `#`
truncates the rest away.  The accepted character sets are the RFC 3986
`pchar`/query sets - a conservative subset of what the crate accepts
verbatim - so every string this model accepts is accepted and preserved
by `Uri::from_str`. -/

/-- RFC 3986 `pchar` minus percent-encoding: unreserved characters,
sub-delimiters, `:` and `@`. -/
def isUriChar (n : Nat) : Bool :=
  (48 ≤ n && n ≤ 57) || (65 ≤ n && n ≤ 90) || (97 ≤ n && n ≤ 122) ||
  n = 45 || n = 46 || n = 95 || n = 126 ||
  n = 33 || n = 36 || n = 38 || n = 39 || n = 40 || n = 41 || n = 42 ||
  n = 43 || n = 44 || n = 59 || n = 61 ||
  n = 58 || n = 64

/-- Characters accepted in the path portion: `pchar` or `/`. -/
def isPathChar (c : Char) : Bool :=
  isUriChar c.toNat || c.toNat = 47

/-- Characters accepted in the query portion: `pchar`, `/` or `?`. -/
def isQueryChar (c : Char) : Bool :=
  isUriChar c.toNat || c.toNat = 47 || c.toNat = 63

/-- The query loop of the path-and-query parse: a `#` (byte 35) starts
the fragment and truncates the rest, an invalid byte fails. -/
def fromSharedQuery : List Char → Option (List Char)
  | [] => some []
  | c :: cs =>
    if c.toNat = 35 then some []
    else if isQueryChar c then (fromSharedQuery cs).map (c :: ·)
    else none

/-- The path loop of the path-and-query parse: a `#` truncates, the
first `?` (byte 63) switches to the query loop, an invalid byte
fails. -/
def fromSharedPath : List Char → Option (List Char)
  | [] => some []
  | c :: cs =>
    if c.toNat = 35 then some []
    else if c.toNat = 63 then (fromSharedQuery cs).map (c :: ·)
    else if isPathChar c then (fromSharedPath cs).map (c :: ·)
    else none

/-- The `Uri::from_str(&uri)?` step of `into_request`, restricted to
the path-and-query portion: the path-and-query the parsed `http::Uri`
reports, or `none` for the `InvalidUri` error. -/
def pathAndQueryFromStr? (s : String) : Option String :=
  (fromSharedPath s.data).map String.mk

/-! ## Query-string construction

`queryCOL` is the `push_str` sequence shared by
`Transactions/Effects/Payments/Offers::into_request`: `cursor=…&`, then
`order=…&`, then `limit=…`, each piece present iff the field is set.
`queryOCL` is the sequence in `Operations::into_request`, which pushes
`order` first, then `cursor`, then `limit`. -/

def cursorPiece : Option String → String
  | some c => "cursor=" ++ c ++ "&"
  | none => ""

def orderPiece : Option Direction → String
  | some o => "order=" ++ o.render ++ "&"
  | none => ""

def limitPiece : Option Nat → String
  | some l => "limit=" ++ natStr l
  | none => ""

def queryCOL (cursor : Option String) (order : Option Direction) (limit : Option Nat) : String :=
  cursorPiece cursor ++ orderPiece order ++ limitPiece limit

def queryOCL (cursor : Option String) (order : Option Direction) (limit : Option Nat) : String :=
  orderPiece order ++ cursorPiece cursor ++ limitPiece limit

/-! ## The five paginated account endpoints

Each struct mirrors its Rust counterpart field for field; `new` and the
`impl_cursor!`/`impl_order!`/`impl_limit!` builder methods set the
corresponding field; `has_query` is the disjunction written in the
source (`order || cursor || limit`). -/

structure Transactions where
  account_id : String
  cursor : Option String
  order : Option Direction
  limit : Option Nat
deriving DecidableEq, Repr

def Transactions.new (account_id : String) : Transactions :=
  { account_id, cursor := none, order := none, limit := none }

def Transactions.with_cursor (t : Transactions) (c : String) : Transactions :=
  { t with cursor := some c }

def Transactions.with_order (t : Transactions) (o : Direction) : Transactions :=
  { t with order := some o }

def Transactions.with_limit (t : Transactions) (l : Nat) : Transactions :=
  { t with limit := some l }

def Transactions.has_query (t : Transactions) : Bool :=
  t.order.isSome || t.cursor.isSome || t.limit.isSome

/-- The path-and-query part of the URI built by
`Transactions::into_request` (everything `into_request` appends after
`host`). -/
def Transactions.path_and_query (t : Transactions) : String :=
  "/accounts/" ++ t.account_id ++ "/transactions" ++
    (if t.has_query then "?" ++ queryCOL t.cursor t.order t.limit else "")

/-- The URI string `Transactions::into_request` constructs and hands
to `Uri::from_str`; the `Uri::from_str(&uri)?` step itself (the
`InvalidUri` error path and the `#`-fragment truncation) is modelled by
`pathAndQueryFromStr?` on the path-and-query portion. -/
def Transactions.into_request (t : Transactions) (host : String) : String :=
  host ++ t.path_and_query

def Transactions.try_from_wrap (wrap : UriWrap) : Except UriError Transactions :=
  match wrap.path with
  | ["accounts", account_id, "transactions"] =>
    .ok { account_id
          cursor := getStr wrap.params "cursor"
          order := getDirection wrap.params "order"
          limit := getU32 wrap.params "limit" }
  | _ => .error .invalidPath

def Transactions.try_from_uri (s : String) : Except UriError Transactions :=
  Transactions.try_from_wrap (UriWrap.ofString s)

structure Effects where
  account_id : String
  cursor : Option String
  order : Option Direction
  limit : Option Nat
deriving DecidableEq, Repr

def Effects.new (account_id : String) : Effects :=
  { account_id, cursor := none, order := none, limit := none }

def Effects.with_cursor (t : Effects) (c : String) : Effects :=
  { t with cursor := some c }

def Effects.with_order (t : Effects) (o : Direction) : Effects :=
  { t with order := some o }

def Effects.with_limit (t : Effects) (l : Nat) : Effects :=
  { t with limit := some l }

def Effects.has_query (t : Effects) : Bool :=
  t.order.isSome || t.cursor.isSome || t.limit.isSome

def Effects.path_and_query (t : Effects) : String :=
  "/accounts/" ++ t.account_id ++ "/effects" ++
    (if t.has_query then "?" ++ queryCOL t.cursor t.order t.limit else "")

/-- The URI string `Effects::into_request` constructs and hands to
`Uri::from_str`; the `Uri::from_str(&uri)?` step itself is modelled by
`pathAndQueryFromStr?` on the path-and-query portion. -/
def Effects.into_request (t : Effects) (host : String) : String :=
  host ++ t.path_and_query

def Effects.try_from_wrap (wrap : UriWrap) : Except UriError Effects :=
  match wrap.path with
  | ["accounts", account_id, "effects"] =>
    .ok { account_id
          cursor := getStr wrap.params "cursor"
          order := getDirection wrap.params "order"
          limit := getU32 wrap.params "limit" }
  | _ => .error .invalidPath

def Effects.try_from_uri (s : String) : Except UriError Effects :=
  Effects.try_from_wrap (UriWrap.ofString s)

structure Operations where
  account_id : String
  cursor : Option String
  order : Option Direction
  limit : Option Nat
deriving DecidableEq, Repr

def Operations.new (account_id : String) : Operations :=
  { account_id, cursor := none, order := none, limit := none }

def Operations.with_cursor (t : Operations) (c : String) : Operations :=
  { t with cursor := some c }

def Operations.with_order (t : Operations) (o : Direction) : Operations :=
  { t with order := some o }

def Operations.with_limit (t : Operations) (l : Nat) : Operations :=
  { t with limit := some l }

def Operations.has_query (t : Operations) : Bool :=
  t.order.isSome || t.cursor.isSome || t.limit.isSome

/-- `Operations::into_request` pushes the `order` piece before the
`cursor` piece, unlike the other four endpoints. -/
def Operations.path_and_query (t : Operations) : String :=
  "/accounts/" ++ t.account_id ++ "/operations" ++
    (if t.has_query then "?" ++ queryOCL t.cursor t.order t.limit else "")

/-- The URI string `Operations::into_request` constructs and hands to
`Uri::from_str`; the `Uri::from_str(&uri)?` step itself is modelled by
`pathAndQueryFromStr?` on the path-and-query portion. -/
def Operations.into_request (t : Operations) (host : String) : String :=
  host ++ t.path_and_query

def Operations.try_from_wrap (wrap : UriWrap) : Except UriError Operations :=
  match wrap.path with
  | ["accounts", account_id, "operations"] =>
    .ok { account_id
          cursor := getStr wrap.params "cursor"
          order := getDirection wrap.params "order"
          limit := getU32 wrap.params "limit" }
  | _ => .error .invalidPath

def Operations.try_from_uri (s : String) : Except UriError Operations :=
  Operations.try_from_wrap (UriWrap.ofString s)

structure Payments where
  account_id : String
  cursor : Option String
  order : Option Direction
  limit : Option Nat
deriving DecidableEq, Repr

def Payments.new (account_id : String) : Payments :=
  { account_id, cursor := none, order := none, limit := none }

def Payments.with_cursor (t : Payments) (c : String) : Payments :=
  { t with cursor := some c }

def Payments.with_order (t : Payments) (o : Direction) : Payments :=
  { t with order := some o }

def Payments.with_limit (t : Payments) (l : Nat) : Payments :=
  { t with limit := some l }

def Payments.has_query (t : Payments) : Bool :=
  t.order.isSome || t.cursor.isSome || t.limit.isSome

def Payments.path_and_query (t : Payments) : String :=
  "/accounts/" ++ t.account_id ++ "/payments" ++
    (if t.has_query then "?" ++ queryCOL t.cursor t.order t.limit else "")

/-- The URI string `Payments::into_request` constructs and hands to
`Uri::from_str`; the `Uri::from_str(&uri)?` step itself is modelled by
`pathAndQueryFromStr?` on the path-and-query portion. -/
def Payments.into_request (t : Payments) (host : String) : String :=
  host ++ t.path_and_query

def Payments.try_from_wrap (wrap : UriWrap) : Except UriError Payments :=
  match wrap.path with
  | ["accounts", account_id, "payments"] =>
    .ok { account_id
          cursor := getStr wrap.params "cursor"
          order := getDirection wrap.params "order"
          limit := getU32 wrap.params "limit" }
  | _ => .error .invalidPath

def Payments.try_from_uri (s : String) : Except UriError Payments :=
  Payments.try_from_wrap (UriWrap.ofString s)

structure Offers where
  account_id : String
  cursor : Option String
  order : Option Direction
  limit : Option Nat
deriving DecidableEq, Repr

def Offers.new (account_id : String) : Offers :=
  { account_id, cursor := none, order := none, limit := none }

def Offers.with_cursor (t : Offers) (c : String) : Offers :=
  { t with cursor := some c }

def Offers.with_order (t : Offers) (o : Direction) : Offers :=
  { t with order := some o }

def Offers.with_limit (t : Offers) (l : Nat) : Offers :=
  { t with limit := some l }

def Offers.has_query (t : Offers) : Bool :=
  t.order.isSome || t.cursor.isSome || t.limit.isSome

def Offers.path_and_query (t : Offers) : String :=
  "/accounts/" ++ t.account_id ++ "/offers" ++
    (if t.has_query then "?" ++ queryCOL t.cursor t.order t.limit else "")

/-- The URI string `Offers::into_request` constructs and hands to
`Uri::from_str`; the `Uri::from_str(&uri)?` step itself is modelled by
`pathAndQueryFromStr?` on the path-and-query portion. -/
def Offers.into_request (t : Offers) (host : String) : String :=
  host ++ t.path_and_query

def Offers.try_from_wrap (wrap : UriWrap) : Except UriError Offers :=
  match wrap.path with
  | ["accounts", account_id, "offers"] =>
    .ok { account_id
          cursor := getStr wrap.params "cursor"
          order := getDirection wrap.params "order"
          limit := getU32 wrap.params "limit" }
  | _ => .error .invalidPath

def Offers.try_from_uri (s : String) : Except UriError Offers :=
  Offers.try_from_wrap (UriWrap.ofString s)

/-! ## The asset resource (`src/client/src/resources/asset.rs`)

`DeserializeResult` models the outcome of a Rust deserialization body:
a value, a serde error carrying a message (`de::Error::custom`), or a
`panic!` from an `unwrap` on the wrong constructor. -/

inductive DeserializeResult (α : Type)
  | ok (a : α)
  | err (msg : String)
  | panicked
deriving DecidableEq, Repr

structure AssetId where
  code : String
  issuer : String
deriving DecidableEq, Repr

inductive AssetIdentifier
  | Native
  | CreditAlphanum4 (id : AssetId)
  | CreditAlphanum12 (id : AssetId)
deriving DecidableEq, Repr

/-- The serde helper struct: `asset_type` plus optional
`asset_code`/`asset_issuer`, the latter two omitted from the JSON
object when `None` (`skip_serializing_if = "Option::is_none"`). -/
structure IntermediateAssetIdentifier where
  asset_type : String
  asset_code : Option String
  asset_issuer : Option String
deriving DecidableEq, Repr

def AssetIdentifier.asset_type : AssetIdentifier → String
  | .Native => "native"
  | .CreditAlphanum4 _ => "credit_alphanum4"
  | .CreditAlphanum12 _ => "credit_alphanum12"

def AssetIdentifier.code : AssetIdentifier → String
  | .Native => "XLM"
  | .CreditAlphanum4 asset_id => asset_id.code
  | .CreditAlphanum12 asset_id => asset_id.code

def AssetIdentifier.asset_code : AssetIdentifier → Option String
  | .Native => none
  | .CreditAlphanum4 asset_id => some asset_id.code
  | .CreditAlphanum12 asset_id => some asset_id.code

def AssetIdentifier.issuer : AssetIdentifier → String
  | .Native => "Stellar Foundation"
  | .CreditAlphanum4 asset_id => asset_id.issuer
  | .CreditAlphanum12 asset_id => asset_id.issuer

def AssetIdentifier.asset_issuer : AssetIdentifier → Option String
  | .Native => none
  | .CreditAlphanum4 asset_id => some asset_id.issuer
  | .CreditAlphanum12 asset_id => some asset_id.issuer

def AssetIdentifier.is_native (a : AssetIdentifier) : Bool :=
  AssetIdentifier.Native == a

/-- `AssetIdentifier::new`: `code.unwrap()` / `issuer.unwrap()` panic
when the option is `None`, so the credit arms only produce a value when
both companions are present; an unknown tag returns
`Err("Invalid Asset Type.")`. -/
def AssetIdentifier.new (asset_type : String) (code issuer : Option String) :
    DeserializeResult AssetIdentifier :=
  match asset_type with
  | "native" => .ok .Native
  | "credit_alphanum4" =>
    match code, issuer with
    | some c, some i => .ok (.CreditAlphanum4 { code := c, issuer := i })
    | _, _ => .panicked
  | "credit_alphanum12" =>
    match code, issuer with
    | some c, some i => .ok (.CreditAlphanum12 { code := c, issuer := i })
    | _, _ => .panicked
  | _ => .err "Invalid Asset Type."

def AssetIdentifier.native : AssetIdentifier := AssetIdentifier.Native

def AssetIdentifier.alphanum4 (code issuer : String) : AssetIdentifier :=
  .CreditAlphanum4 { code, issuer }

def AssetIdentifier.alphanum12 (code issuer : String) : AssetIdentifier :=
  .CreditAlphanum12 { code, issuer }

/-- `impl Serialize for AssetIdentifier`: `Native` maps to the
intermediate rep with both options `None`; every other variant fills
all three fields from the accessors. -/
def AssetIdentifier.serializeRep : AssetIdentifier → IntermediateAssetIdentifier
  | .Native => { asset_type := "native", asset_code := none, asset_issuer := none }
  | a => { asset_type := a.asset_type
           asset_code := some a.code
           asset_issuer := some a.issuer }

/-- `impl Deserialize for AssetIdentifier`: delegate to
`AssetIdentifier::new`, mapping its `Err` into a serde error
(`map_err(de::Error::custom)`). -/
def AssetIdentifier.deserialize (rep : IntermediateAssetIdentifier) :
    DeserializeResult AssetIdentifier :=
  AssetIdentifier.new rep.asset_type rep.asset_code rep.asset_issuer

/-- The JSON-object fields emitted when serializing the intermediate
rep: `asset_type` always, `asset_code`/`asset_issuer` only when
present (`skip_serializing_if = "Option::is_none"`), i.e. omitted
rather than null. -/
def IntermediateAssetIdentifier.jsonFields (r : IntermediateAssetIdentifier) :
    List (String × String) :=
  ("asset_type", r.asset_type) ::
    ((match r.asset_code with
      | some c => [("asset_code", c)]
      | none => []) ++
     (match r.asset_issuer with
      | some i => [("asset_issuer", i)]
      | none => []))

def renderField (kv : String × String) : String :=
  "\"" ++ kv.1 ++ "\":\"" ++ kv.2 ++ "\""

/-- `serde_json` rendering of a flat string-valued object. -/
def renderObj (fields : List (String × String)) : String :=
  "\x7b" ++ String.intercalate "," (fields.map renderField) ++ "\x7d"

/-- `resources::Amount`: opaque to the claims under study; carried
through `Asset` deserialization unchanged. -/
structure Amount where
  raw : Int
deriving DecidableEq, Repr

structure Flags where
  auth_required : Bool
  auth_revocable : Bool
deriving DecidableEq, Repr

structure Asset where
  asset_identifier : AssetIdentifier
  amount : Amount
  num_accounts : Nat
  flags : Flags
deriving DecidableEq, Repr

structure IntermediateAsset where
  asset_type : String
  asset_code : Option String
  asset_issuer : Option String
  amount : Amount
  num_accounts : Nat
  flags : Flags
deriving DecidableEq, Repr

/-- `impl Deserialize for Asset`: builds the identifier with
`AssetIdentifier::new(..).map_err(de::Error::custom)` and then calls
`.unwrap()` on that `Result` - so an `Err` from `new` (unknown
`asset_type`) panics instead of being propagated, and a panic inside
`new` propagates as a panic. -/
def Asset.deserialize (rep : IntermediateAsset) : DeserializeResult Asset :=
  match AssetIdentifier.new rep.asset_type rep.asset_code rep.asset_issuer with
  | .ok ai =>
    .ok { asset_identifier := ai
          amount := rep.amount
          num_accounts := rep.num_accounts
          flags := rep.flags }
  | .err _ => .panicked
  | .panicked => .panicked

/-- `optParam k v` is the contribution of one optional query field to
the parsed parameter list. -/
def optParam (k : String) : Option String → List (String × String)
  | some v => [(k, v)]
  | none => []

/-! ## Lemmas about `breakAt` -/

theorem breakAt_eq_none {c : Char} {l : List Char} (h : c ∉ l) : breakAt c l = none := by
  induction l with
  | nil => rfl
  | cons x xs ih =>
    simp only [List.mem_cons, not_or] at h
    have hx : ¬x = c := fun h' => h.1 h'.symm
    simp [breakAt, hx, ih h.2]

theorem breakAt_append_cons {c : Char} {a : List Char} (h : c ∉ a) (b : List Char) :
    breakAt c (a ++ c :: b) = some (a, b) := by
  induction a with
  | nil => simp [breakAt]
  | cons x xs ih =>
    simp only [List.mem_cons, not_or] at h
    simp [breakAt, Ne.symm h.1, ih h.2]

theorem eq_of_breakAt_eq_some {c : Char} {l p q : List Char}
    (h : breakAt c l = some (p, q)) : l = p ++ c :: q := by
  induction l generalizing p with
  | nil => simp [breakAt] at h
  | cons x xs ih =>
    by_cases hx : x = c
    · simp [breakAt, hx] at h
      simp [hx, ← h.1, ← h.2]
    · simp only [breakAt, hx, if_false, Option.map_eq_some'] at h
      obtain ⟨pq, hpq, hp⟩ := h
      obtain ⟨hp1, hp2⟩ := Prod.mk.injEq .. ▸ hp
      cases p with
      | nil => simp at hp1
      | cons y ys =>
        simp only [List.cons.injEq] at hp1
        rw [List.cons_append, hp1.1]
        rw [@ih ys (by rw [hpq, ← hp1.2, ← hp2])]

theorem breakAt_isSome_of_mem {c : Char} {l : List Char} (h : c ∈ l) :
    ∃ p q, breakAt c l = some (p, q) := by
  induction l with
  | nil => simp at h
  | cons x xs ih =>
    by_cases hx : x = c
    · exact ⟨[], xs, by simp [breakAt, hx]⟩
    · obtain ⟨p, q, hp⟩ := ih (by
        rcases List.mem_cons.mp h with h | h
        · exact absurd h.symm hx
        · exact h)
      exact ⟨x :: p, q, by simp [breakAt, hx, hp]⟩

/-! ## Lemmas about decimal numerals -/

theorem charToDigit?_digitToChar : ∀ d < 10, charToDigit? (digitToChar d) = some d := by
  decide

theorem parseNatAux_append (l₁ l₂ : List Char) (acc : Nat) :
    parseNatAux (l₁ ++ l₂) acc = (parseNatAux l₁ acc).bind (fun a => parseNatAux l₂ a) := by
  induction l₁ generalizing acc with
  | nil => rfl
  | cons c cs ih =>
    simp only [List.cons_append, parseNatAux]
    cases charToDigit? c with
    | none => rfl
    | some d => simp [ih]

theorem natToCharsFuel_ne_nil {fuel n : Nat} (h : 0 < fuel) : natToCharsFuel fuel n ≠ [] := by
  cases fuel with
  | zero => omega
  | succ f =>
    by_cases hn : n < 10 <;> simp [natToCharsFuel, hn]

theorem parseNatAux_natToCharsFuel :
    ∀ fuel n acc, n < fuel →
      parseNatAux (natToCharsFuel fuel n) acc =
        some (acc * 10 ^ (natToCharsFuel fuel n).length + n) := by
  intro fuel
  induction fuel with
  | zero => omega
  | succ f ih =>
    intro n acc hn
    by_cases h10 : n < 10
    · simp only [natToCharsFuel, h10, if_true, parseNatAux,
        charToDigit?_digitToChar n h10, Option.bind_some, List.length_singleton]
      norm_num; omega
    · have hdiv : n / 10 < f := by
        have h1 : n / 10 < n := Nat.div_lt_self (by omega) (by omega)
        omega
      simp only [natToCharsFuel, h10, if_false, parseNatAux_append,
        ih (n / 10) acc hdiv, Option.bind_some, Option.some_bind, parseNatAux,
        charToDigit?_digitToChar (n % 10) (Nat.mod_lt n (by omega)),
        List.length_append, List.length_singleton]
      congr 1
      have h2 : acc * 10 ^ ((natToCharsFuel f (n / 10)).length + 1) =
          acc * 10 ^ (natToCharsFuel f (n / 10)).length * 10 := by ring
      rw [h2]
      generalize acc * 10 ^ (natToCharsFuel f (n / 10)).length = A
      omega

theorem parseNat?_natToChars (n : Nat) : parseNat? (natToChars n) = some n := by
  have hne := @natToCharsFuel_ne_nil (n + 1) n (by omega)
  have hempty : (natToCharsFuel (n + 1) n).isEmpty = false := by
    simpa [List.isEmpty_iff] using hne
  simp only [parseNat?, natToChars, hempty, Bool.false_eq_true, if_false,
    parseNatAux_natToCharsFuel (n + 1) n 0 (by omega), Nat.zero_mul, Nat.zero_add]

theorem mem_natToCharsFuel {c : Char} :
    ∀ {fuel n : Nat}, c ∈ natToCharsFuel fuel n → ∃ d, d < 10 ∧ c = digitToChar d := by
  intro fuel
  induction fuel with
  | zero => intro n h; simp [natToCharsFuel] at h
  | succ f ih =>
    intro n h
    by_cases h10 : n < 10
    · simp only [natToCharsFuel, h10, if_true, List.mem_singleton] at h
      exact ⟨n, h10, h⟩
    · simp only [natToCharsFuel, h10, if_false, List.mem_append, List.mem_singleton] at h
      rcases h with h | h
      · exact ih h
      · exact ⟨n % 10, Nat.mod_lt n (by omega), h⟩

theorem not_mem_natToChars {c : Char} (hc : ∀ d, d < 10 → c ≠ digitToChar d) (n : Nat) :
    c ∉ natToChars n := by
  intro h
  obtain ⟨d, hd, hcd⟩ := mem_natToCharsFuel h
  exact hc d hd hcd

theorem parseU32?_natStr {n : Nat} (h : n < 2 ^ 32) : parseU32? (natStr n) = some n := by
  have h32 : n < 4294967296 := by omega
  simp [parseU32?, natStr, parseNat?_natToChars, h, h32]

/-! ## Lemmas about splitting and query-parameter parsing -/

theorem splitOnChar_first {c : Char} {xs : List Char} (h : c ∉ xs) (ys : List Char) :
    (xs ++ c :: ys).splitOn c = xs :: ys.splitOn c := by
  simp only [List.splitOn]
  exact List.splitOnP_first (· == c) xs
    (fun x hx => by simp only [beq_iff_eq]; exact fun he => h (he ▸ hx)) c (by simp) ys

theorem splitOnChar_single {c : Char} {xs : List Char} (h : c ∉ xs) :
    xs.splitOn c = [xs] := by
  simp only [List.splitOn]
  exact List.splitOnP_eq_single (· == c) xs
    (fun x hx => by simp only [beq_iff_eq]; exact fun he => h (he ▸ hx))

theorem not_mem_append_cons {c x : Char} {k v : List Char}
    (hk : c ∉ k) (hx : c ≠ x) (hv : c ∉ v) : c ∉ k ++ x :: v := by
  intro h
  rcases List.mem_append.mp h with h | h
  · exact hk h
  · rcases List.mem_cons.mp h with h | h
    · exact hx h
    · exact hv h

theorem parsePiece?_nil : parsePiece? [] = none := rfl

theorem parsePiece?_keyval (k v : List Char) (hk : '=' ∉ k) :
    parsePiece? (k ++ '=' :: v) = some (String.mk k, String.mk v) := by
  have hne : (k ++ '=' :: v).isEmpty = false := by cases k <;> rfl
  simp [parsePiece?, hne, breakAt_append_cons hk]

theorem parseParams_nil : parseParams [] = [] := rfl

theorem parseParams_piece_append (k v : String) (rest : List Char)
    (hk : '=' ∉ k.data) (hka : '&' ∉ k.data) (hv : '&' ∉ v.data) :
    parseParams ((k.data ++ '=' :: v.data) ++ '&' :: rest) = (k, v) :: parseParams rest := by
  unfold parseParams
  rw [splitOnChar_first (not_mem_append_cons hka (by decide) hv)]
  rw [List.filterMap_cons, parsePiece?_keyval _ _ hk]

theorem parseParams_piece_last (k v : String)
    (hk : '=' ∉ k.data) (hka : '&' ∉ k.data) (hv : '&' ∉ v.data) :
    parseParams (k.data ++ '=' :: v.data) = [(k, v)] := by
  unfold parseParams
  rw [splitOnChar_single (not_mem_append_cons hka (by decide) hv)]
  rw [List.filterMap_cons, parsePiece?_keyval _ _ hk]
  rfl

theorem amp_not_mem_render : ∀ d : Direction, '&' ∉ (Direction.render d).data := by
  intro d
  cases d <;> decide

theorem amp_not_mem_natStr (n : Nat) : '&' ∉ (natStr n).data :=
  not_mem_natToChars (by decide) n

/-- The query built by `Transactions/Effects/Payments/Offers` parses
back into exactly the present parameters, in the order
cursor, order, limit. -/
theorem parseParams_queryCOL (c : Option String) (o : Option Direction) (l : Option Nat)
    (hc : ∀ s ∈ c, '&' ∉ s.data) :
    parseParams (queryCOL c o l).data =
      optParam "cursor" c ++ optParam "order" (o.map Direction.render) ++
        optParam "limit" (l.map natStr) := by
  rcases c with _ | s <;> rcases o with _ | d <;> rcases l with _ | n
  · rfl
  · have h1 : (queryCOL none none (some n)).data =
        "limit".data ++ '=' :: (natStr n).data := by
      simp [queryCOL, cursorPiece, orderPiece, limitPiece, List.append_assoc]
    rw [h1, parseParams_piece_last _ _ (by decide) (by decide) (amp_not_mem_natStr n)]
    rfl
  · have h1 : (queryCOL none (some d) none).data =
        ("order".data ++ '=' :: (d.render).data) ++ '&' :: [] := by
      simp [queryCOL, cursorPiece, orderPiece, limitPiece, List.append_assoc]
    rw [h1, parseParams_piece_append _ _ _ (by decide) (by decide) (amp_not_mem_render d)]
    rfl
  · have h1 : (queryCOL none (some d) (some n)).data =
        ("order".data ++ '=' :: (d.render).data) ++ '&' ::
          ("limit".data ++ '=' :: (natStr n).data) := by
      simp [queryCOL, cursorPiece, orderPiece, limitPiece, List.append_assoc]
    rw [h1, parseParams_piece_append _ _ _ (by decide) (by decide) (amp_not_mem_render d),
      parseParams_piece_last _ _ (by decide) (by decide) (amp_not_mem_natStr n)]
    rfl
  · have hs : '&' ∉ s.data := hc s (by simp)
    have h1 : (queryCOL (some s) none none).data =
        ("cursor".data ++ '=' :: s.data) ++ '&' :: [] := by
      simp [queryCOL, cursorPiece, orderPiece, limitPiece, List.append_assoc]
    rw [h1, parseParams_piece_append _ _ _ (by decide) (by decide) hs]
    rfl
  · have hs : '&' ∉ s.data := hc s (by simp)
    have h1 : (queryCOL (some s) none (some n)).data =
        ("cursor".data ++ '=' :: s.data) ++ '&' ::
          ("limit".data ++ '=' :: (natStr n).data) := by
      simp [queryCOL, cursorPiece, orderPiece, limitPiece, List.append_assoc]
    rw [h1, parseParams_piece_append _ _ _ (by decide) (by decide) hs,
      parseParams_piece_last _ _ (by decide) (by decide) (amp_not_mem_natStr n)]
    rfl
  · have hs : '&' ∉ s.data := hc s (by simp)
    have h1 : (queryCOL (some s) (some d) none).data =
        ("cursor".data ++ '=' :: s.data) ++ '&' ::
          (("order".data ++ '=' :: (d.render).data) ++ '&' :: []) := by
      simp [queryCOL, cursorPiece, orderPiece, limitPiece, List.append_assoc]
    rw [h1, parseParams_piece_append _ _ _ (by decide) (by decide) hs,
      parseParams_piece_append _ _ _ (by decide) (by decide) (amp_not_mem_render d)]
    rfl
  · have hs : '&' ∉ s.data := hc s (by simp)
    have h1 : (queryCOL (some s) (some d) (some n)).data =
        ("cursor".data ++ '=' :: s.data) ++ '&' ::
          (("order".data ++ '=' :: (d.render).data) ++ '&' ::
            ("limit".data ++ '=' :: (natStr n).data)) := by
      simp [queryCOL, cursorPiece, orderPiece, limitPiece, List.append_assoc]
    rw [h1, parseParams_piece_append _ _ _ (by decide) (by decide) hs,
      parseParams_piece_append _ _ _ (by decide) (by decide) (amp_not_mem_render d),
      parseParams_piece_last _ _ (by decide) (by decide) (amp_not_mem_natStr n)]
    rfl

/-- The query built by `Operations` parses back into exactly the
present parameters, in the order order, cursor, limit. -/
theorem parseParams_queryOCL (c : Option String) (o : Option Direction) (l : Option Nat)
    (hc : ∀ s ∈ c, '&' ∉ s.data) :
    parseParams (queryOCL c o l).data =
      optParam "order" (o.map Direction.render) ++ optParam "cursor" c ++
        optParam "limit" (l.map natStr) := by
  rcases c with _ | s <;> rcases o with _ | d <;> rcases l with _ | n
  · rfl
  · have h1 : (queryOCL none none (some n)).data =
        "limit".data ++ '=' :: (natStr n).data := by
      simp [queryOCL, cursorPiece, orderPiece, limitPiece, List.append_assoc]
    rw [h1, parseParams_piece_last _ _ (by decide) (by decide) (amp_not_mem_natStr n)]
    rfl
  · have h1 : (queryOCL none (some d) none).data =
        ("order".data ++ '=' :: (d.render).data) ++ '&' :: [] := by
      simp [queryOCL, cursorPiece, orderPiece, limitPiece, List.append_assoc]
    rw [h1, parseParams_piece_append _ _ _ (by decide) (by decide) (amp_not_mem_render d)]
    rfl
  · have h1 : (queryOCL none (some d) (some n)).data =
        ("order".data ++ '=' :: (d.render).data) ++ '&' ::
          ("limit".data ++ '=' :: (natStr n).data) := by
      simp [queryOCL, cursorPiece, orderPiece, limitPiece, List.append_assoc]
    rw [h1, parseParams_piece_append _ _ _ (by decide) (by decide) (amp_not_mem_render d),
      parseParams_piece_last _ _ (by decide) (by decide) (amp_not_mem_natStr n)]
    rfl
  · have hs : '&' ∉ s.data := hc s (by simp)
    have h1 : (queryOCL (some s) none none).data =
        ("cursor".data ++ '=' :: s.data) ++ '&' :: [] := by
      simp [queryOCL, cursorPiece, orderPiece, limitPiece, List.append_assoc]
    rw [h1, parseParams_piece_append _ _ _ (by decide) (by decide) hs]
    rfl
  · have hs : '&' ∉ s.data := hc s (by simp)
    have h1 : (queryOCL (some s) none (some n)).data =
        ("cursor".data ++ '=' :: s.data) ++ '&' ::
          ("limit".data ++ '=' :: (natStr n).data) := by
      simp [queryOCL, cursorPiece, orderPiece, limitPiece, List.append_assoc]
    rw [h1, parseParams_piece_append _ _ _ (by decide) (by decide) hs,
      parseParams_piece_last _ _ (by decide) (by decide) (amp_not_mem_natStr n)]
    rfl
  · have hs : '&' ∉ s.data := hc s (by simp)
    have h1 : (queryOCL (some s) (some d) none).data =
        ("order".data ++ '=' :: (d.render).data) ++ '&' ::
          (("cursor".data ++ '=' :: s.data) ++ '&' :: []) := by
      simp [queryOCL, cursorPiece, orderPiece, limitPiece, List.append_assoc]
    rw [h1, parseParams_piece_append _ _ _ (by decide) (by decide) (amp_not_mem_render d),
      parseParams_piece_append _ _ _ (by decide) (by decide) hs]
    rfl
  · have hs : '&' ∉ s.data := hc s (by simp)
    have h1 : (queryOCL (some s) (some d) (some n)).data =
        ("order".data ++ '=' :: (d.render).data) ++ '&' ::
          (("cursor".data ++ '=' :: s.data) ++ '&' ::
            ("limit".data ++ '=' :: (natStr n).data)) := by
      simp [queryOCL, cursorPiece, orderPiece, limitPiece, List.append_assoc]
    rw [h1, parseParams_piece_append _ _ _ (by decide) (by decide) (amp_not_mem_render d),
      parseParams_piece_append _ _ _ (by decide) (by decide) hs,
      parseParams_piece_last _ _ (by decide) (by decide) (amp_not_mem_natStr n)]
    rfl

theorem fromStr?_render : ∀ d : Direction, Direction.fromStr? d.render = some d := by
  intro d
  cases d <;> rfl

/-- Looking the three parameters back up from the parsed
cursor-order-limit query recovers the original option fields. -/
theorem extract_COL (c : Option String) (o : Option Direction) (l : Option Nat)
    (hc : ∀ s ∈ c, '&' ∉ s.data) (hl : ∀ n ∈ l, n < 2 ^ 32) :
    getStr (parseParams (queryCOL c o l).data) "cursor" = c ∧
    getDirection (parseParams (queryCOL c o l).data) "order" = o ∧
    getU32 (parseParams (queryCOL c o l).data) "limit" = l := by
  rw [parseParams_queryCOL c o l hc]
  rcases c with _ | s <;> rcases o with _ | d <;> rcases l with _ | n <;>
    refine ⟨?_, ?_, ?_⟩ <;>
    simp [getStr, getDirection, getU32, optParam, List.lookup, fromStr?_render] <;>
    exact parseU32?_natStr (hl _ (by simp))

/-- Looking the three parameters back up from the parsed
order-cursor-limit query (the `Operations` ordering) recovers the
original option fields. -/
theorem extract_OCL (c : Option String) (o : Option Direction) (l : Option Nat)
    (hc : ∀ s ∈ c, '&' ∉ s.data) (hl : ∀ n ∈ l, n < 2 ^ 32) :
    getStr (parseParams (queryOCL c o l).data) "cursor" = c ∧
    getDirection (parseParams (queryOCL c o l).data) "order" = o ∧
    getU32 (parseParams (queryOCL c o l).data) "limit" = l := by
  rw [parseParams_queryOCL c o l hc]
  rcases c with _ | s <;> rcases o with _ | d <;> rcases l with _ | n <;>
    refine ⟨?_, ?_, ?_⟩ <;>
    simp [getStr, getDirection, getU32, optParam, List.lookup, fromStr?_render] <;>
    exact parseU32?_natStr (hl _ (by simp))

/-! ## Lemmas about `uriQuery` and `UriWrap.ofString` -/

theorem uriQuery_of_shape {s : String} {p q : List Char}
    (hp : '?' ∉ p) (hs : s.data = p ++ '?' :: q) : uriQuery s = some (String.mk q) := by
  unfold uriQuery
  rw [hs, breakAt_append_cons hp]
  rfl

theorem uriQuery_none {s : String} (h : '?' ∉ s.data) : uriQuery s = none := by
  unfold uriQuery
  rw [breakAt_eq_none h]
  rfl

/-- The path characters of `/accounts/{id}/{seg}` written in the form
the splitting lemmas consume. -/
def accountPathChars (id seg : String) : List Char :=
  '/' :: ("accounts".data ++ '/' :: (id.data ++ '/' :: seg.data))

theorem not_mem_accountPathChars {c : Char} {id seg : String}
    (hc : c ≠ '/') (hacc : c ∉ "accounts".data)
    (hid : c ∉ id.data) (hseg : c ∉ seg.data) :
    c ∉ accountPathChars id seg := by
  intro h
  rcases List.mem_cons.mp h with h | h
  · exact hc h
  rcases List.mem_append.mp h with h | h
  · exact hacc h
  rcases List.mem_cons.mp h with h | h
  · exact hc h
  rcases List.mem_append.mp h with h | h
  · exact hid h
  rcases List.mem_cons.mp h with h | h
  · exact hc h
  · exact hseg h

theorem splitOn_accountPathChars {id seg : String}
    (hid : '/' ∉ id.data) (hseg : '/' ∉ seg.data) :
    (accountPathChars id seg).splitOn '/' =
      [[], "accounts".data, id.data, seg.data] := by
  unfold accountPathChars
  rw [show ('/' :: ("accounts".data ++ '/' :: (id.data ++ '/' :: seg.data))) =
      [] ++ '/' :: ("accounts".data ++ '/' :: (id.data ++ '/' :: seg.data)) from rfl,
    splitOnChar_first (by simp), splitOnChar_first (by decide),
    splitOnChar_first hid, splitOnChar_single hseg]

theorem path_of_accountPathChars {id seg : String}
    (hid : id.data ≠ [] ∧ '/' ∉ id.data) (hseg : seg.data ≠ [] ∧ '/' ∉ seg.data) :
    (((accountPathChars id seg).splitOn '/').filter (fun l => !l.isEmpty)).map String.mk =
      ["accounts", id, seg] := by
  rw [splitOn_accountPathChars hid.2 hseg.2]
  have h1 : id.data.isEmpty = false := by
    simpa [List.isEmpty_iff] using hid.1
  have h2 : seg.data.isEmpty = false := by
    simpa [List.isEmpty_iff] using hseg.1
  simp [List.filter, h1, h2]

/-- Decoding a URI of the shape `/accounts/{id}/{seg}?{query}`. -/
theorem ofString_with_query {s : String} (id seg q : String)
    (hid : id.data ≠ [] ∧ '/' ∉ id.data ∧ '?' ∉ id.data)
    (hseg : seg.data ≠ [] ∧ '/' ∉ seg.data ∧ '?' ∉ seg.data)
    (hs : s.data = accountPathChars id seg ++ '?' :: q.data) :
    UriWrap.ofString s =
      { path := ["accounts", id, seg], params := parseParams q.data } := by
  unfold UriWrap.ofString
  rw [hs, breakAt_append_cons
    (not_mem_accountPathChars (by decide) (by decide) hid.2.2 hseg.2.2)]
  simp only
  rw [path_of_accountPathChars ⟨hid.1, hid.2.1⟩ ⟨hseg.1, hseg.2.1⟩]

/-- Decoding a URI of the shape `/accounts/{id}/{seg}` with no query. -/
theorem ofString_no_query {s : String} (id seg : String)
    (hid : id.data ≠ [] ∧ '/' ∉ id.data ∧ '?' ∉ id.data)
    (hseg : seg.data ≠ [] ∧ '/' ∉ seg.data ∧ '?' ∉ seg.data)
    (hs : s.data = accountPathChars id seg) :
    UriWrap.ofString s =
      { path := ["accounts", id, seg], params := [] } := by
  unfold UriWrap.ofString
  rw [hs, breakAt_eq_none
    (not_mem_accountPathChars (by decide) (by decide) hid.2.2 hseg.2.2)]
  simp only
  rw [path_of_accountPathChars ⟨hid.1, hid.2.1⟩ ⟨hseg.1, hseg.2.1⟩]

/-! ## Trailing-separator lemmas -/

theorem getLast?_append_of_eq {l₁ l₂ : List Char} {a : Char} (h : l₂.getLast? = some a) :
    (l₁ ++ l₂).getLast? = some a := by
  have hne : l₂ ≠ [] := by intro he; rw [he] at h; simp at h
  rw [List.getLast?_append_of_ne_nil l₁ hne, h]

/-- When `limit` is absent but `cursor` or `order` is present, the
cursor-order-limit query string ends in `&`. -/
theorem queryCOL_getLast_amp (c : Option String) (o : Option Direction)
    (h : c.isSome || o.isSome) : ((queryCOL c o none).data).getLast? = some '&' := by
  rcases c with _ | s <;> rcases o with _ | d
  · simp at h
  · have h1 : (queryCOL none (some d) none).data =
        ("order".data ++ '=' :: (d.render).data) ++ '&' :: [] := by
      simp [queryCOL, cursorPiece, orderPiece, limitPiece, List.append_assoc]
    rw [h1, List.getLast?_append_cons]
    rfl
  · have h1 : (queryCOL (some s) none none).data =
        ("cursor".data ++ '=' :: s.data) ++ '&' :: [] := by
      simp [queryCOL, cursorPiece, orderPiece, limitPiece, List.append_assoc]
    rw [h1, List.getLast?_append_cons]
    rfl
  · have h1 : (queryCOL (some s) (some d) none).data =
        (("cursor".data ++ '=' :: s.data) ++ '&' ::
          ("order".data ++ '=' :: (d.render).data)) ++ '&' :: [] := by
      simp [queryCOL, cursorPiece, orderPiece, limitPiece, List.append_assoc]
    rw [h1, List.getLast?_append_cons]
    rfl

/-- Same for the order-cursor-limit (`Operations`) query string. -/
theorem queryOCL_getLast_amp (c : Option String) (o : Option Direction)
    (h : c.isSome || o.isSome) : ((queryOCL c o none).data).getLast? = some '&' := by
  rcases c with _ | s <;> rcases o with _ | d
  · simp at h
  · have h1 : (queryOCL none (some d) none).data =
        ("order".data ++ '=' :: (d.render).data) ++ '&' :: [] := by
      simp [queryOCL, cursorPiece, orderPiece, limitPiece, List.append_assoc]
    rw [h1, List.getLast?_append_cons]
    rfl
  · have h1 : (queryOCL (some s) none none).data =
        ("cursor".data ++ '=' :: s.data) ++ '&' :: [] := by
      simp [queryOCL, cursorPiece, orderPiece, limitPiece, List.append_assoc]
    rw [h1, List.getLast?_append_cons]
    rfl
  · have h1 : (queryOCL (some s) (some d) none).data =
        (("order".data ++ '=' :: (d.render).data) ++ '&' ::
          ("cursor".data ++ '=' :: s.data)) ++ '&' :: [] := by
      simp [queryOCL, cursorPiece, orderPiece, limitPiece, List.append_assoc]
    rw [h1, List.getLast?_append_cons]
    rfl

/-- A string that contains a `?` and ends in `&` has a query component
that ends in `&`. -/
theorem uriQuery_getLast_amp {s : String}
    (hmem : '?' ∈ s.data) (hlast : s.data.getLast? = some '&') :
    ∃ q : String, uriQuery s = some q ∧ q.data.getLast? = some '&' := by
  obtain ⟨p, q', hbreak⟩ := breakAt_isSome_of_mem hmem
  have hdq := eq_of_breakAt_eq_some hbreak
  refine ⟨String.mk q', by unfold uriQuery; rw [hbreak]; rfl, ?_⟩
  cases q' with
  | nil =>
    rw [hdq, List.getLast?_append_cons] at hlast
    simp at hlast
  | cons a as =>
    rw [hdq, List.getLast?_append_cons, List.getLast?_cons_cons] at hlast
    exact hlast

/-! ## Preservation lemmas for the `Uri::from_str` step

A path-and-query string all of whose path bytes are URI path characters
and all of whose query bytes are URI query characters is accepted by the
parse and comes back unchanged - no `InvalidUri`, no `#` truncation. -/

theorem fromSharedQuery_all {l : List Char} (h : ∀ c ∈ l, isQueryChar c) :
    fromSharedQuery l = some l := by
  induction l with
  | nil => rfl
  | cons c cs ih =>
    have hc := h c (List.mem_cons_self c cs)
    have h35 : ¬c.toNat = 35 := by
      intro he
      simp [isQueryChar, isUriChar] at hc
      omega
    simp [fromSharedQuery, h35, hc, ih (fun x hx => h x (List.mem_cons_of_mem _ hx))]

theorem fromSharedPath_query {p q : List Char} (hp : ∀ c ∈ p, isPathChar c)
    (hq : ∀ c ∈ q, isQueryChar c) :
    fromSharedPath (p ++ '?' :: q) = some (p ++ '?' :: q) := by
  induction p with
  | nil =>
    have h1 : fromSharedPath ('?' :: q) = (fromSharedQuery q).map ('?' :: ·) := rfl
    rw [List.nil_append, h1, fromSharedQuery_all hq]
    rfl
  | cons c cs ih =>
    have hc := hp c (List.mem_cons_self c cs)
    have h35 : ¬c.toNat = 35 := by
      intro he
      simp [isPathChar, isUriChar] at hc
      omega
    have h63 : ¬c.toNat = 63 := by
      intro he
      simp [isPathChar, isUriChar] at hc
      omega
    rw [List.cons_append]
    simp [fromSharedPath, h35, h63, hc, ih (fun x hx => hp x (List.mem_cons_of_mem _ hx))]

theorem fromSharedPath_all {p : List Char} (hp : ∀ c ∈ p, isPathChar c) :
    fromSharedPath p = some p := by
  induction p with
  | nil => rfl
  | cons c cs ih =>
    have hc := hp c (List.mem_cons_self c cs)
    have h35 : ¬c.toNat = 35 := by
      intro he
      simp [isPathChar, isUriChar] at hc
      omega
    have h63 : ¬c.toNat = 63 := by
      intro he
      simp [isPathChar, isUriChar] at hc
      omega
    simp [fromSharedPath, h35, h63, hc, ih (fun x hx => hp x (List.mem_cons_of_mem _ hx))]

theorem natStr_queryChars (n : Nat) : ∀ ch ∈ (natStr n).data, isQueryChar ch := by
  intro ch h
  obtain ⟨d, hd, rfl⟩ := mem_natToCharsFuel h
  exact (by decide : ∀ d, d < 10 → isQueryChar (digitToChar d) = true) d hd

theorem queryCOL_queryChars (c : Option String) (o : Option Direction) (l : Option Nat)
    (hc : ∀ s ∈ c, ∀ ch ∈ s.data, isQueryChar ch) :
    ∀ ch ∈ (queryCOL c o l).data, isQueryChar ch := by
  have hdata : (queryCOL c o l).data =
      (cursorPiece c).data ++ ((orderPiece o).data ++ (limitPiece l).data) := by
    simp [queryCOL, String.data_append]
  rw [hdata]
  refine List.forall_mem_append.mpr ⟨?_, List.forall_mem_append.mpr ⟨?_, ?_⟩⟩
  · rcases c with _ | s
    · decide
    · have hs := hc s (by simp)
      intro ch h
      rw [show (cursorPiece (some s)).data =
          "cursor=".data ++ (s.data ++ "&".data) from by
        simp [cursorPiece, String.data_append]] at h
      rcases List.mem_append.mp h with h | h
      · exact (by decide : ∀ x ∈ ("cursor=" : String).data, isQueryChar x) ch h
      rcases List.mem_append.mp h with h | h
      · exact hs ch h
      · exact (by decide : ∀ x ∈ ("&" : String).data, isQueryChar x) ch h
  · rcases o with _ | d
    · decide
    · cases d <;> decide
  · rcases l with _ | n
    · decide
    · intro ch h
      rw [show (limitPiece (some n)).data = "limit=".data ++ (natStr n).data from by
        simp [limitPiece, String.data_append]] at h
      rcases List.mem_append.mp h with h | h
      · exact (by decide : ∀ x ∈ ("limit=" : String).data, isQueryChar x) ch h
      · exact natStr_queryChars n ch h

theorem queryOCL_queryChars (c : Option String) (o : Option Direction) (l : Option Nat)
    (hc : ∀ s ∈ c, ∀ ch ∈ s.data, isQueryChar ch) :
    ∀ ch ∈ (queryOCL c o l).data, isQueryChar ch := by
  have hdata : (queryOCL c o l).data =
      (orderPiece o).data ++ ((cursorPiece c).data ++ (limitPiece l).data) := by
    simp [queryOCL, String.data_append]
  rw [hdata]
  refine List.forall_mem_append.mpr ⟨?_, List.forall_mem_append.mpr ⟨?_, ?_⟩⟩
  · rcases o with _ | d
    · decide
    · cases d <;> decide
  · rcases c with _ | s
    · decide
    · have hs := hc s (by simp)
      intro ch h
      rw [show (cursorPiece (some s)).data =
          "cursor=".data ++ (s.data ++ "&".data) from by
        simp [cursorPiece, String.data_append]] at h
      rcases List.mem_append.mp h with h | h
      · exact (by decide : ∀ x ∈ ("cursor=" : String).data, isQueryChar x) ch h
      rcases List.mem_append.mp h with h | h
      · exact hs ch h
      · exact (by decide : ∀ x ∈ ("&" : String).data, isQueryChar x) ch h
  · rcases l with _ | n
    · decide
    · intro ch h
      rw [show (limitPiece (some n)).data = "limit=".data ++ (natStr n).data from by
        simp [limitPiece, String.data_append]] at h
      rcases List.mem_append.mp h with h | h
      · exact (by decide : ∀ x ∈ ("limit=" : String).data, isQueryChar x) ch h
      · exact natStr_queryChars n ch h

theorem accountPathChars_pathChars {id seg : String}
    (hid : ∀ ch ∈ id.data, isPathChar ch) (hseg : ∀ ch ∈ seg.data, isPathChar ch) :
    ∀ ch ∈ accountPathChars id seg, isPathChar ch := by
  intro ch h
  unfold accountPathChars at h
  rcases List.mem_cons.mp h with h | h
  · subst h; decide
  rcases List.mem_append.mp h with h | h
  · exact (by decide : ∀ x ∈ ("accounts" : String).data, isPathChar x) ch h
  rcases List.mem_cons.mp h with h | h
  · subst h; decide
  rcases List.mem_append.mp h with h | h
  · exact hid ch h
  rcases List.mem_cons.mp h with h | h
  · subst h; decide
  · exact hseg ch h

/-! ## Per-endpoint round-trip lemmas -/

theorem transactions_roundtrip_aux (t : Transactions)
    (hid : t.account_id ≠ "" ∧ '/' ∉ t.account_id.data ∧ '?' ∉ t.account_id.data)
    (hc : ∀ s ∈ t.cursor, '&' ∉ s.data) (hl : ∀ n ∈ t.limit, n < 2 ^ 32) :
    Transactions.try_from_uri t.path_and_query = .ok t := by
  obtain ⟨id, c, o, l⟩ := t
  have hdid : id.data ≠ [] := fun h => hid.1 (String.ext h)
  unfold Transactions.try_from_uri
  by_cases hq : (Transactions.mk id c o l).has_query
  · have hpq : (Transactions.path_and_query ⟨id, c, o, l⟩).data
        = accountPathChars id "transactions" ++ '?' :: (queryCOL c o l).data := by
      simp [Transactions.path_and_query, hq, accountPathChars, String.data_append,
        List.append_assoc]
    rw [ofString_with_query id "transactions" (queryCOL c o l)
      ⟨hdid, hid.2.1, hid.2.2⟩ ⟨by decide, by decide, by decide⟩ hpq]
    obtain ⟨h1, h2, h3⟩ := extract_COL c o l hc hl
    simp [Transactions.try_from_wrap, h1, h2, h3]
  · rcases o with _ | d
    · rcases c with _ | s
      · rcases l with _ | n
        · have hpq : (Transactions.path_and_query ⟨id, none, none, none⟩).data
              = accountPathChars id "transactions" := by
            simp [Transactions.path_and_query, Transactions.has_query, accountPathChars,
              String.data_append, List.append_assoc]
          rw [ofString_no_query id "transactions"
            ⟨hdid, hid.2.1, hid.2.2⟩ ⟨by decide, by decide, by decide⟩ hpq]
          rfl
        · exact absurd rfl hq
      · exact absurd rfl hq
    · exact absurd rfl hq

theorem effects_roundtrip_aux (t : Effects)
    (hid : t.account_id ≠ "" ∧ '/' ∉ t.account_id.data ∧ '?' ∉ t.account_id.data)
    (hc : ∀ s ∈ t.cursor, '&' ∉ s.data) (hl : ∀ n ∈ t.limit, n < 2 ^ 32) :
    Effects.try_from_uri t.path_and_query = .ok t := by
  obtain ⟨id, c, o, l⟩ := t
  have hdid : id.data ≠ [] := fun h => hid.1 (String.ext h)
  unfold Effects.try_from_uri
  by_cases hq : (Effects.mk id c o l).has_query
  · have hpq : (Effects.path_and_query ⟨id, c, o, l⟩).data
        = accountPathChars id "effects" ++ '?' :: (queryCOL c o l).data := by
      simp [Effects.path_and_query, hq, accountPathChars, String.data_append,
        List.append_assoc]
    rw [ofString_with_query id "effects" (queryCOL c o l)
      ⟨hdid, hid.2.1, hid.2.2⟩ ⟨by decide, by decide, by decide⟩ hpq]
    obtain ⟨h1, h2, h3⟩ := extract_COL c o l hc hl
    simp [Effects.try_from_wrap, h1, h2, h3]
  · rcases o with _ | d
    · rcases c with _ | s
      · rcases l with _ | n
        · have hpq : (Effects.path_and_query ⟨id, none, none, none⟩).data
              = accountPathChars id "effects" := by
            simp [Effects.path_and_query, Effects.has_query, accountPathChars,
              String.data_append, List.append_assoc]
          rw [ofString_no_query id "effects"
            ⟨hdid, hid.2.1, hid.2.2⟩ ⟨by decide, by decide, by decide⟩ hpq]
          rfl
        · exact absurd rfl hq
      · exact absurd rfl hq
    · exact absurd rfl hq

theorem operations_roundtrip_aux (t : Operations)
    (hid : t.account_id ≠ "" ∧ '/' ∉ t.account_id.data ∧ '?' ∉ t.account_id.data)
    (hc : ∀ s ∈ t.cursor, '&' ∉ s.data) (hl : ∀ n ∈ t.limit, n < 2 ^ 32) :
    Operations.try_from_uri t.path_and_query = .ok t := by
  obtain ⟨id, c, o, l⟩ := t
  have hdid : id.data ≠ [] := fun h => hid.1 (String.ext h)
  unfold Operations.try_from_uri
  by_cases hq : (Operations.mk id c o l).has_query
  · have hpq : (Operations.path_and_query ⟨id, c, o, l⟩).data
        = accountPathChars id "operations" ++ '?' :: (queryOCL c o l).data := by
      simp [Operations.path_and_query, hq, accountPathChars, String.data_append,
        List.append_assoc]
    rw [ofString_with_query id "operations" (queryOCL c o l)
      ⟨hdid, hid.2.1, hid.2.2⟩ ⟨by decide, by decide, by decide⟩ hpq]
    obtain ⟨h1, h2, h3⟩ := extract_OCL c o l hc hl
    simp [Operations.try_from_wrap, h1, h2, h3]
  · rcases o with _ | d
    · rcases c with _ | s
      · rcases l with _ | n
        · have hpq : (Operations.path_and_query ⟨id, none, none, none⟩).data
              = accountPathChars id "operations" := by
            simp [Operations.path_and_query, Operations.has_query, accountPathChars,
              String.data_append, List.append_assoc]
          rw [ofString_no_query id "operations"
            ⟨hdid, hid.2.1, hid.2.2⟩ ⟨by decide, by decide, by decide⟩ hpq]
          rfl
        · exact absurd rfl hq
      · exact absurd rfl hq
    · exact absurd rfl hq

theorem payments_roundtrip_aux (t : Payments)
    (hid : t.account_id ≠ "" ∧ '/' ∉ t.account_id.data ∧ '?' ∉ t.account_id.data)
    (hc : ∀ s ∈ t.cursor, '&' ∉ s.data) (hl : ∀ n ∈ t.limit, n < 2 ^ 32) :
    Payments.try_from_uri t.path_and_query = .ok t := by
  obtain ⟨id, c, o, l⟩ := t
  have hdid : id.data ≠ [] := fun h => hid.1 (String.ext h)
  unfold Payments.try_from_uri
  by_cases hq : (Payments.mk id c o l).has_query
  · have hpq : (Payments.path_and_query ⟨id, c, o, l⟩).data
        = accountPathChars id "payments" ++ '?' :: (queryCOL c o l).data := by
      simp [Payments.path_and_query, hq, accountPathChars, String.data_append,
        List.append_assoc]
    rw [ofString_with_query id "payments" (queryCOL c o l)
      ⟨hdid, hid.2.1, hid.2.2⟩ ⟨by decide, by decide, by decide⟩ hpq]
    obtain ⟨h1, h2, h3⟩ := extract_COL c o l hc hl
    simp [Payments.try_from_wrap, h1, h2, h3]
  · rcases o with _ | d
    · rcases c with _ | s
      · rcases l with _ | n
        · have hpq : (Payments.path_and_query ⟨id, none, none, none⟩).data
              = accountPathChars id "payments" := by
            simp [Payments.path_and_query, Payments.has_query, accountPathChars,
              String.data_append, List.append_assoc]
          rw [ofString_no_query id "payments"
            ⟨hdid, hid.2.1, hid.2.2⟩ ⟨by decide, by decide, by decide⟩ hpq]
          rfl
        · exact absurd rfl hq
      · exact absurd rfl hq
    · exact absurd rfl hq

theorem offers_roundtrip_aux (t : Offers)
    (hid : t.account_id ≠ "" ∧ '/' ∉ t.account_id.data ∧ '?' ∉ t.account_id.data)
    (hc : ∀ s ∈ t.cursor, '&' ∉ s.data) (hl : ∀ n ∈ t.limit, n < 2 ^ 32) :
    Offers.try_from_uri t.path_and_query = .ok t := by
  obtain ⟨id, c, o, l⟩ := t
  have hdid : id.data ≠ [] := fun h => hid.1 (String.ext h)
  unfold Offers.try_from_uri
  by_cases hq : (Offers.mk id c o l).has_query
  · have hpq : (Offers.path_and_query ⟨id, c, o, l⟩).data
        = accountPathChars id "offers" ++ '?' :: (queryCOL c o l).data := by
      simp [Offers.path_and_query, hq, accountPathChars, String.data_append,
        List.append_assoc]
    rw [ofString_with_query id "offers" (queryCOL c o l)
      ⟨hdid, hid.2.1, hid.2.2⟩ ⟨by decide, by decide, by decide⟩ hpq]
    obtain ⟨h1, h2, h3⟩ := extract_COL c o l hc hl
    simp [Offers.try_from_wrap, h1, h2, h3]
  · rcases o with _ | d
    · rcases c with _ | s
      · rcases l with _ | n
        · have hpq : (Offers.path_and_query ⟨id, none, none, none⟩).data
              = accountPathChars id "offers" := by
            simp [Offers.path_and_query, Offers.has_query, accountPathChars,
              String.data_append, List.append_assoc]
          rw [ofString_no_query id "offers"
            ⟨hdid, hid.2.1, hid.2.2⟩ ⟨by decide, by decide, by decide⟩ hpq]
          rfl
        · exact absurd rfl hq
      · exact absurd rfl hq
    · exact absurd rfl hq

/-! ## Per-endpoint round-trip lemmas through `Uri::from_str`

These strengthen the raw-string round trips: under the character
restrictions, the `Uri::from_str(&uri)?` step succeeds and preserves
the path-and-query exactly, and decoding that parsed path-and-query
reconstructs the original descriptor. -/

theorem transactions_uri_roundtrip_aux (t : Transactions)
    (hid : t.account_id ≠ "" ∧ '/' ∉ t.account_id.data ∧
      ∀ ch ∈ t.account_id.data, isPathChar ch)
    (hc : ∀ s ∈ t.cursor, ∀ ch ∈ s.data, isQueryChar ch ∧ ch ≠ '&')
    (hl : ∀ n ∈ t.limit, n < 2 ^ 32) :
    pathAndQueryFromStr? t.path_and_query = some t.path_and_query ∧
    Transactions.try_from_uri t.path_and_query = .ok t := by
  have hidq : '?' ∉ t.account_id.data := fun h => absurd (hid.2.2 '?' h) (by decide)
  have hcamp : ∀ s ∈ t.cursor, '&' ∉ s.data := fun s hs h => ((hc s hs) '&' h).2 rfl
  refine ⟨?_, transactions_roundtrip_aux t ⟨hid.1, hid.2.1, hidq⟩ hcamp hl⟩
  obtain ⟨id, c, o, l⟩ := t
  by_cases hq : (Transactions.mk id c o l).has_query
  · have hpq : (Transactions.path_and_query ⟨id, c, o, l⟩).data
        = accountPathChars id "transactions" ++ '?' :: (queryCOL c o l).data := by
      simp [Transactions.path_and_query, hq, accountPathChars, String.data_append,
        List.append_assoc]
    unfold pathAndQueryFromStr?
    rw [hpq, fromSharedPath_query (accountPathChars_pathChars hid.2.2 (by decide))
      (queryCOL_queryChars c o l (fun s hs ch hch => (hc s hs ch hch).1)), ← hpq]
    rfl
  · rcases o with _ | d
    · rcases c with _ | s
      · rcases l with _ | n
        · have hpq : (Transactions.path_and_query ⟨id, none, none, none⟩).data
              = accountPathChars id "transactions" := by
            simp [Transactions.path_and_query, Transactions.has_query, accountPathChars,
              String.data_append, List.append_assoc]
          unfold pathAndQueryFromStr?
          rw [hpq, fromSharedPath_all (accountPathChars_pathChars hid.2.2 (by decide)),
            ← hpq]
          rfl
        · exact absurd rfl hq
      · exact absurd rfl hq
    · exact absurd rfl hq


theorem effects_uri_roundtrip_aux (t : Effects)
    (hid : t.account_id ≠ "" ∧ '/' ∉ t.account_id.data ∧
      ∀ ch ∈ t.account_id.data, isPathChar ch)
    (hc : ∀ s ∈ t.cursor, ∀ ch ∈ s.data, isQueryChar ch ∧ ch ≠ '&')
    (hl : ∀ n ∈ t.limit, n < 2 ^ 32) :
    pathAndQueryFromStr? t.path_and_query = some t.path_and_query ∧
    Effects.try_from_uri t.path_and_query = .ok t := by
  have hidq : '?' ∉ t.account_id.data := fun h => absurd (hid.2.2 '?' h) (by decide)
  have hcamp : ∀ s ∈ t.cursor, '&' ∉ s.data := fun s hs h => ((hc s hs) '&' h).2 rfl
  refine ⟨?_, effects_roundtrip_aux t ⟨hid.1, hid.2.1, hidq⟩ hcamp hl⟩
  obtain ⟨id, c, o, l⟩ := t
  by_cases hq : (Effects.mk id c o l).has_query
  · have hpq : (Effects.path_and_query ⟨id, c, o, l⟩).data
        = accountPathChars id "effects" ++ '?' :: (queryCOL c o l).data := by
      simp [Effects.path_and_query, hq, accountPathChars, String.data_append,
        List.append_assoc]
    unfold pathAndQueryFromStr?
    rw [hpq, fromSharedPath_query (accountPathChars_pathChars hid.2.2 (by decide))
      (queryCOL_queryChars c o l (fun s hs ch hch => (hc s hs ch hch).1)), ← hpq]
    rfl
  · rcases o with _ | d
    · rcases c with _ | s
      · rcases l with _ | n
        · have hpq : (Effects.path_and_query ⟨id, none, none, none⟩).data
              = accountPathChars id "effects" := by
            simp [Effects.path_and_query, Effects.has_query, accountPathChars,
              String.data_append, List.append_assoc]
          unfold pathAndQueryFromStr?
          rw [hpq, fromSharedPath_all (accountPathChars_pathChars hid.2.2 (by decide)),
            ← hpq]
          rfl
        · exact absurd rfl hq
      · exact absurd rfl hq
    · exact absurd rfl hq


theorem operations_uri_roundtrip_aux (t : Operations)
    (hid : t.account_id ≠ "" ∧ '/' ∉ t.account_id.data ∧
      ∀ ch ∈ t.account_id.data, isPathChar ch)
    (hc : ∀ s ∈ t.cursor, ∀ ch ∈ s.data, isQueryChar ch ∧ ch ≠ '&')
    (hl : ∀ n ∈ t.limit, n < 2 ^ 32) :
    pathAndQueryFromStr? t.path_and_query = some t.path_and_query ∧
    Operations.try_from_uri t.path_and_query = .ok t := by
  have hidq : '?' ∉ t.account_id.data := fun h => absurd (hid.2.2 '?' h) (by decide)
  have hcamp : ∀ s ∈ t.cursor, '&' ∉ s.data := fun s hs h => ((hc s hs) '&' h).2 rfl
  refine ⟨?_, operations_roundtrip_aux t ⟨hid.1, hid.2.1, hidq⟩ hcamp hl⟩
  obtain ⟨id, c, o, l⟩ := t
  by_cases hq : (Operations.mk id c o l).has_query
  · have hpq : (Operations.path_and_query ⟨id, c, o, l⟩).data
        = accountPathChars id "operations" ++ '?' :: (queryOCL c o l).data := by
      simp [Operations.path_and_query, hq, accountPathChars, String.data_append,
        List.append_assoc]
    unfold pathAndQueryFromStr?
    rw [hpq, fromSharedPath_query (accountPathChars_pathChars hid.2.2 (by decide))
      (queryOCL_queryChars c o l (fun s hs ch hch => (hc s hs ch hch).1)), ← hpq]
    rfl
  · rcases o with _ | d
    · rcases c with _ | s
      · rcases l with _ | n
        · have hpq : (Operations.path_and_query ⟨id, none, none, none⟩).data
              = accountPathChars id "operations" := by
            simp [Operations.path_and_query, Operations.has_query, accountPathChars,
              String.data_append, List.append_assoc]
          unfold pathAndQueryFromStr?
          rw [hpq, fromSharedPath_all (accountPathChars_pathChars hid.2.2 (by decide)),
            ← hpq]
          rfl
        · exact absurd rfl hq
      · exact absurd rfl hq
    · exact absurd rfl hq


theorem payments_uri_roundtrip_aux (t : Payments)
    (hid : t.account_id ≠ "" ∧ '/' ∉ t.account_id.data ∧
      ∀ ch ∈ t.account_id.data, isPathChar ch)
    (hc : ∀ s ∈ t.cursor, ∀ ch ∈ s.data, isQueryChar ch ∧ ch ≠ '&')
    (hl : ∀ n ∈ t.limit, n < 2 ^ 32) :
    pathAndQueryFromStr? t.path_and_query = some t.path_and_query ∧
    Payments.try_from_uri t.path_and_query = .ok t := by
  have hidq : '?' ∉ t.account_id.data := fun h => absurd (hid.2.2 '?' h) (by decide)
  have hcamp : ∀ s ∈ t.cursor, '&' ∉ s.data := fun s hs h => ((hc s hs) '&' h).2 rfl
  refine ⟨?_, payments_roundtrip_aux t ⟨hid.1, hid.2.1, hidq⟩ hcamp hl⟩
  obtain ⟨id, c, o, l⟩ := t
  by_cases hq : (Payments.mk id c o l).has_query
  · have hpq : (Payments.path_and_query ⟨id, c, o, l⟩).data
        = accountPathChars id "payments" ++ '?' :: (queryCOL c o l).data := by
      simp [Payments.path_and_query, hq, accountPathChars, String.data_append,
        List.append_assoc]
    unfold pathAndQueryFromStr?
    rw [hpq, fromSharedPath_query (accountPathChars_pathChars hid.2.2 (by decide))
      (queryCOL_queryChars c o l (fun s hs ch hch => (hc s hs ch hch).1)), ← hpq]
    rfl
  · rcases o with _ | d
    · rcases c with _ | s
      · rcases l with _ | n
        · have hpq : (Payments.path_and_query ⟨id, none, none, none⟩).data
              = accountPathChars id "payments" := by
            simp [Payments.path_and_query, Payments.has_query, accountPathChars,
              String.data_append, List.append_assoc]
          unfold pathAndQueryFromStr?
          rw [hpq, fromSharedPath_all (accountPathChars_pathChars hid.2.2 (by decide)),
            ← hpq]
          rfl
        · exact absurd rfl hq
      · exact absurd rfl hq
    · exact absurd rfl hq


theorem offers_uri_roundtrip_aux (t : Offers)
    (hid : t.account_id ≠ "" ∧ '/' ∉ t.account_id.data ∧
      ∀ ch ∈ t.account_id.data, isPathChar ch)
    (hc : ∀ s ∈ t.cursor, ∀ ch ∈ s.data, isQueryChar ch ∧ ch ≠ '&')
    (hl : ∀ n ∈ t.limit, n < 2 ^ 32) :
    pathAndQueryFromStr? t.path_and_query = some t.path_and_query ∧
    Offers.try_from_uri t.path_and_query = .ok t := by
  have hidq : '?' ∉ t.account_id.data := fun h => absurd (hid.2.2 '?' h) (by decide)
  have hcamp : ∀ s ∈ t.cursor, '&' ∉ s.data := fun s hs h => ((hc s hs) '&' h).2 rfl
  refine ⟨?_, offers_roundtrip_aux t ⟨hid.1, hid.2.1, hidq⟩ hcamp hl⟩
  obtain ⟨id, c, o, l⟩ := t
  by_cases hq : (Offers.mk id c o l).has_query
  · have hpq : (Offers.path_and_query ⟨id, c, o, l⟩).data
        = accountPathChars id "offers" ++ '?' :: (queryCOL c o l).data := by
      simp [Offers.path_and_query, hq, accountPathChars, String.data_append,
        List.append_assoc]
    unfold pathAndQueryFromStr?
    rw [hpq, fromSharedPath_query (accountPathChars_pathChars hid.2.2 (by decide))
      (queryCOL_queryChars c o l (fun s hs ch hch => (hc s hs ch hch).1)), ← hpq]
    rfl
  · rcases o with _ | d
    · rcases c with _ | s
      · rcases l with _ | n
        · have hpq : (Offers.path_and_query ⟨id, none, none, none⟩).data
              = accountPathChars id "offers" := by
            simp [Offers.path_and_query, Offers.has_query, accountPathChars,
              String.data_append, List.append_assoc]
          unfold pathAndQueryFromStr?
          rw [hpq, fromSharedPath_all (accountPathChars_pathChars hid.2.2 (by decide)),
            ← hpq]
          rfl
        · exact absurd rfl hq
      · exact absurd rfl hq
    · exact absurd rfl hq

/-! ## Per-endpoint query-component lemmas -/

theorem transactions_uriQuery_aux (t : Transactions) (host : String)
    (hh : '?' ∉ host.data) (hid : '?' ∉ t.account_id.data) :
    uriQuery (t.into_request host) =
      if t.has_query then some (queryCOL t.cursor t.order t.limit) else none := by
  obtain ⟨id, c, o, l⟩ := t
  by_cases hq : (Transactions.mk id c o l).has_query
  · rw [if_pos hq]
    have hpq : (Transactions.path_and_query ⟨id, c, o, l⟩).data
        = accountPathChars id "transactions" ++ '?' :: (queryCOL c o l).data := by
      simp [Transactions.path_and_query, hq, accountPathChars, String.data_append,
        List.append_assoc]
    have hdata : (Transactions.into_request ⟨id, c, o, l⟩ host).data
        = (host.data ++ accountPathChars id "transactions")
            ++ '?' :: (queryCOL c o l).data := by
      simp [Transactions.into_request, String.data_append, hpq]
    exact uriQuery_of_shape (fun h => by
      rcases List.mem_append.mp h with h | h
      · exact hh h
      · exact not_mem_accountPathChars (by decide) (by decide) hid (by decide) h) hdata
  · rw [if_neg hq]
    rcases o with _ | d
    · rcases c with _ | s
      · rcases l with _ | n
        · have hpq : (Transactions.path_and_query ⟨id, none, none, none⟩).data
              = accountPathChars id "transactions" := by
            simp [Transactions.path_and_query, Transactions.has_query, accountPathChars,
              String.data_append, List.append_assoc]
          apply uriQuery_none
          rw [show (Transactions.into_request ⟨id, none, none, none⟩ host).data
              = host.data ++ accountPathChars id "transactions" from by
            simp [Transactions.into_request, String.data_append, hpq]]
          intro h
          rcases List.mem_append.mp h with h | h
          · exact hh h
          · exact not_mem_accountPathChars (by decide) (by decide) hid (by decide) h
        · exact absurd rfl hq
      · exact absurd rfl hq
    · exact absurd rfl hq

theorem transactions_trailing_aux (t : Transactions) (host : String)
    (hlim : t.limit = none) (hco : t.cursor.isSome || t.order.isSome) :
    ∃ q : String, uriQuery (t.into_request host) = some q ∧ q.data.getLast? = some '&' := by
  obtain ⟨id, c, o, l⟩ := t
  simp only at hlim hco
  subst hlim
  have hq : (Transactions.mk id c o none).has_query := by
    rcases c with _ | s <;> rcases o with _ | d <;> simp_all [Transactions.has_query]
  have hpq : (Transactions.path_and_query ⟨id, c, o, none⟩).data
      = accountPathChars id "transactions" ++ '?' :: (queryCOL c o none).data := by
    simp [Transactions.path_and_query, hq, accountPathChars, String.data_append,
      List.append_assoc]
  have hdata : (Transactions.into_request ⟨id, c, o, none⟩ host).data
      = host.data ++ (accountPathChars id "transactions"
          ++ '?' :: (queryCOL c o none).data) := by
    simp [Transactions.into_request, String.data_append, hpq]
  have hql := queryCOL_getLast_amp c o hco
  have hqne : (queryCOL c o none).data ≠ [] := fun he => by simp [he] at hql
  apply uriQuery_getLast_amp
  · rw [hdata]; simp
  · rw [hdata]
    exact getLast?_append_of_eq (by rw [List.getLast?_append_cons,
      show ('?' :: (queryCOL c o none).data) = ['?'] ++ (queryCOL c o none).data from rfl,
      List.getLast?_append_of_ne_nil _ hqne, hql])


theorem effects_uriQuery_aux (t : Effects) (host : String)
    (hh : '?' ∉ host.data) (hid : '?' ∉ t.account_id.data) :
    uriQuery (t.into_request host) =
      if t.has_query then some (queryCOL t.cursor t.order t.limit) else none := by
  obtain ⟨id, c, o, l⟩ := t
  by_cases hq : (Effects.mk id c o l).has_query
  · rw [if_pos hq]
    have hpq : (Effects.path_and_query ⟨id, c, o, l⟩).data
        = accountPathChars id "effects" ++ '?' :: (queryCOL c o l).data := by
      simp [Effects.path_and_query, hq, accountPathChars, String.data_append,
        List.append_assoc]
    have hdata : (Effects.into_request ⟨id, c, o, l⟩ host).data
        = (host.data ++ accountPathChars id "effects")
            ++ '?' :: (queryCOL c o l).data := by
      simp [Effects.into_request, String.data_append, hpq]
    exact uriQuery_of_shape (fun h => by
      rcases List.mem_append.mp h with h | h
      · exact hh h
      · exact not_mem_accountPathChars (by decide) (by decide) hid (by decide) h) hdata
  · rw [if_neg hq]
    rcases o with _ | d
    · rcases c with _ | s
      · rcases l with _ | n
        · have hpq : (Effects.path_and_query ⟨id, none, none, none⟩).data
              = accountPathChars id "effects" := by
            simp [Effects.path_and_query, Effects.has_query, accountPathChars,
              String.data_append, List.append_assoc]
          apply uriQuery_none
          rw [show (Effects.into_request ⟨id, none, none, none⟩ host).data
              = host.data ++ accountPathChars id "effects" from by
            simp [Effects.into_request, String.data_append, hpq]]
          intro h
          rcases List.mem_append.mp h with h | h
          · exact hh h
          · exact not_mem_accountPathChars (by decide) (by decide) hid (by decide) h
        · exact absurd rfl hq
      · exact absurd rfl hq
    · exact absurd rfl hq

theorem effects_trailing_aux (t : Effects) (host : String)
    (hlim : t.limit = none) (hco : t.cursor.isSome || t.order.isSome) :
    ∃ q : String, uriQuery (t.into_request host) = some q ∧ q.data.getLast? = some '&' := by
  obtain ⟨id, c, o, l⟩ := t
  simp only at hlim hco
  subst hlim
  have hq : (Effects.mk id c o none).has_query := by
    rcases c with _ | s <;> rcases o with _ | d <;> simp_all [Effects.has_query]
  have hpq : (Effects.path_and_query ⟨id, c, o, none⟩).data
      = accountPathChars id "effects" ++ '?' :: (queryCOL c o none).data := by
    simp [Effects.path_and_query, hq, accountPathChars, String.data_append,
      List.append_assoc]
  have hdata : (Effects.into_request ⟨id, c, o, none⟩ host).data
      = host.data ++ (accountPathChars id "effects"
          ++ '?' :: (queryCOL c o none).data) := by
    simp [Effects.into_request, String.data_append, hpq]
  have hql := queryCOL_getLast_amp c o hco
  have hqne : (queryCOL c o none).data ≠ [] := fun he => by simp [he] at hql
  apply uriQuery_getLast_amp
  · rw [hdata]; simp
  · rw [hdata]
    exact getLast?_append_of_eq (by rw [List.getLast?_append_cons,
      show ('?' :: (queryCOL c o none).data) = ['?'] ++ (queryCOL c o none).data from rfl,
      List.getLast?_append_of_ne_nil _ hqne, hql])


theorem operations_uriQuery_aux (t : Operations) (host : String)
    (hh : '?' ∉ host.data) (hid : '?' ∉ t.account_id.data) :
    uriQuery (t.into_request host) =
      if t.has_query then some (queryOCL t.cursor t.order t.limit) else none := by
  obtain ⟨id, c, o, l⟩ := t
  by_cases hq : (Operations.mk id c o l).has_query
  · rw [if_pos hq]
    have hpq : (Operations.path_and_query ⟨id, c, o, l⟩).data
        = accountPathChars id "operations" ++ '?' :: (queryOCL c o l).data := by
      simp [Operations.path_and_query, hq, accountPathChars, String.data_append,
        List.append_assoc]
    have hdata : (Operations.into_request ⟨id, c, o, l⟩ host).data
        = (host.data ++ accountPathChars id "operations")
            ++ '?' :: (queryOCL c o l).data := by
      simp [Operations.into_request, String.data_append, hpq]
    exact uriQuery_of_shape (fun h => by
      rcases List.mem_append.mp h with h | h
      · exact hh h
      · exact not_mem_accountPathChars (by decide) (by decide) hid (by decide) h) hdata
  · rw [if_neg hq]
    rcases o with _ | d
    · rcases c with _ | s
      · rcases l with _ | n
        · have hpq : (Operations.path_and_query ⟨id, none, none, none⟩).data
              = accountPathChars id "operations" := by
            simp [Operations.path_and_query, Operations.has_query, accountPathChars,
              String.data_append, List.append_assoc]
          apply uriQuery_none
          rw [show (Operations.into_request ⟨id, none, none, none⟩ host).data
              = host.data ++ accountPathChars id "operations" from by
            simp [Operations.into_request, String.data_append, hpq]]
          intro h
          rcases List.mem_append.mp h with h | h
          · exact hh h
          · exact not_mem_accountPathChars (by decide) (by decide) hid (by decide) h
        · exact absurd rfl hq
      · exact absurd rfl hq
    · exact absurd rfl hq

theorem operations_trailing_aux (t : Operations) (host : String)
    (hlim : t.limit = none) (hco : t.cursor.isSome || t.order.isSome) :
    ∃ q : String, uriQuery (t.into_request host) = some q ∧ q.data.getLast? = some '&' := by
  obtain ⟨id, c, o, l⟩ := t
  simp only at hlim hco
  subst hlim
  have hq : (Operations.mk id c o none).has_query := by
    rcases c with _ | s <;> rcases o with _ | d <;> simp_all [Operations.has_query]
  have hpq : (Operations.path_and_query ⟨id, c, o, none⟩).data
      = accountPathChars id "operations" ++ '?' :: (queryOCL c o none).data := by
    simp [Operations.path_and_query, hq, accountPathChars, String.data_append,
      List.append_assoc]
  have hdata : (Operations.into_request ⟨id, c, o, none⟩ host).data
      = host.data ++ (accountPathChars id "operations"
          ++ '?' :: (queryOCL c o none).data) := by
    simp [Operations.into_request, String.data_append, hpq]
  have hql := queryOCL_getLast_amp c o hco
  have hqne : (queryOCL c o none).data ≠ [] := fun he => by simp [he] at hql
  apply uriQuery_getLast_amp
  · rw [hdata]; simp
  · rw [hdata]
    exact getLast?_append_of_eq (by rw [List.getLast?_append_cons,
      show ('?' :: (queryOCL c o none).data) = ['?'] ++ (queryOCL c o none).data from rfl,
      List.getLast?_append_of_ne_nil _ hqne, hql])


theorem payments_uriQuery_aux (t : Payments) (host : String)
    (hh : '?' ∉ host.data) (hid : '?' ∉ t.account_id.data) :
    uriQuery (t.into_request host) =
      if t.has_query then some (queryCOL t.cursor t.order t.limit) else none := by
  obtain ⟨id, c, o, l⟩ := t
  by_cases hq : (Payments.mk id c o l).has_query
  · rw [if_pos hq]
    have hpq : (Payments.path_and_query ⟨id, c, o, l⟩).data
        = accountPathChars id "payments" ++ '?' :: (queryCOL c o l).data := by
      simp [Payments.path_and_query, hq, accountPathChars, String.data_append,
        List.append_assoc]
    have hdata : (Payments.into_request ⟨id, c, o, l⟩ host).data
        = (host.data ++ accountPathChars id "payments")
            ++ '?' :: (queryCOL c o l).data := by
      simp [Payments.into_request, String.data_append, hpq]
    exact uriQuery_of_shape (fun h => by
      rcases List.mem_append.mp h with h | h
      · exact hh h
      · exact not_mem_accountPathChars (by decide) (by decide) hid (by decide) h) hdata
  · rw [if_neg hq]
    rcases o with _ | d
    · rcases c with _ | s
      · rcases l with _ | n
        · have hpq : (Payments.path_and_query ⟨id, none, none, none⟩).data
              = accountPathChars id "payments" := by
            simp [Payments.path_and_query, Payments.has_query, accountPathChars,
              String.data_append, List.append_assoc]
          apply uriQuery_none
          rw [show (Payments.into_request ⟨id, none, none, none⟩ host).data
              = host.data ++ accountPathChars id "payments" from by
            simp [Payments.into_request, String.data_append, hpq]]
          intro h
          rcases List.mem_append.mp h with h | h
          · exact hh h
          · exact not_mem_accountPathChars (by decide) (by decide) hid (by decide) h
        · exact absurd rfl hq
      · exact absurd rfl hq
    · exact absurd rfl hq

theorem payments_trailing_aux (t : Payments) (host : String)
    (hlim : t.limit = none) (hco : t.cursor.isSome || t.order.isSome) :
    ∃ q : String, uriQuery (t.into_request host) = some q ∧ q.data.getLast? = some '&' := by
  obtain ⟨id, c, o, l⟩ := t
  simp only at hlim hco
  subst hlim
  have hq : (Payments.mk id c o none).has_query := by
    rcases c with _ | s <;> rcases o with _ | d <;> simp_all [Payments.has_query]
  have hpq : (Payments.path_and_query ⟨id, c, o, none⟩).data
      = accountPathChars id "payments" ++ '?' :: (queryCOL c o none).data := by
    simp [Payments.path_and_query, hq, accountPathChars, String.data_append,
      List.append_assoc]
  have hdata : (Payments.into_request ⟨id, c, o, none⟩ host).data
      = host.data ++ (accountPathChars id "payments"
          ++ '?' :: (queryCOL c o none).data) := by
    simp [Payments.into_request, String.data_append, hpq]
  have hql := queryCOL_getLast_amp c o hco
  have hqne : (queryCOL c o none).data ≠ [] := fun he => by simp [he] at hql
  apply uriQuery_getLast_amp
  · rw [hdata]; simp
  · rw [hdata]
    exact getLast?_append_of_eq (by rw [List.getLast?_append_cons,
      show ('?' :: (queryCOL c o none).data) = ['?'] ++ (queryCOL c o none).data from rfl,
      List.getLast?_append_of_ne_nil _ hqne, hql])


theorem offers_uriQuery_aux (t : Offers) (host : String)
    (hh : '?' ∉ host.data) (hid : '?' ∉ t.account_id.data) :
    uriQuery (t.into_request host) =
      if t.has_query then some (queryCOL t.cursor t.order t.limit) else none := by
  obtain ⟨id, c, o, l⟩ := t
  by_cases hq : (Offers.mk id c o l).has_query
  · rw [if_pos hq]
    have hpq : (Offers.path_and_query ⟨id, c, o, l⟩).data
        = accountPathChars id "offers" ++ '?' :: (queryCOL c o l).data := by
      simp [Offers.path_and_query, hq, accountPathChars, String.data_append,
        List.append_assoc]
    have hdata : (Offers.into_request ⟨id, c, o, l⟩ host).data
        = (host.data ++ accountPathChars id "offers")
            ++ '?' :: (queryCOL c o l).data := by
      simp [Offers.into_request, String.data_append, hpq]
    exact uriQuery_of_shape (fun h => by
      rcases List.mem_append.mp h with h | h
      · exact hh h
      · exact not_mem_accountPathChars (by decide) (by decide) hid (by decide) h) hdata
  · rw [if_neg hq]
    rcases o with _ | d
    · rcases c with _ | s
      · rcases l with _ | n
        · have hpq : (Offers.path_and_query ⟨id, none, none, none⟩).data
              = accountPathChars id "offers" := by
            simp [Offers.path_and_query, Offers.has_query, accountPathChars,
              String.data_append, List.append_assoc]
          apply uriQuery_none
          rw [show (Offers.into_request ⟨id, none, none, none⟩ host).data
              = host.data ++ accountPathChars id "offers" from by
            simp [Offers.into_request, String.data_append, hpq]]
          intro h
          rcases List.mem_append.mp h with h | h
          · exact hh h
          · exact not_mem_accountPathChars (by decide) (by decide) hid (by decide) h
        · exact absurd rfl hq
      · exact absurd rfl hq
    · exact absurd rfl hq

theorem offers_trailing_aux (t : Offers) (host : String)
    (hlim : t.limit = none) (hco : t.cursor.isSome || t.order.isSome) :
    ∃ q : String, uriQuery (t.into_request host) = some q ∧ q.data.getLast? = some '&' := by
  obtain ⟨id, c, o, l⟩ := t
  simp only at hlim hco
  subst hlim
  have hq : (Offers.mk id c o none).has_query := by
    rcases c with _ | s <;> rcases o with _ | d <;> simp_all [Offers.has_query]
  have hpq : (Offers.path_and_query ⟨id, c, o, none⟩).data
      = accountPathChars id "offers" ++ '?' :: (queryCOL c o none).data := by
    simp [Offers.path_and_query, hq, accountPathChars, String.data_append,
      List.append_assoc]
  have hdata : (Offers.into_request ⟨id, c, o, none⟩ host).data
      = host.data ++ (accountPathChars id "offers"
          ++ '?' :: (queryCOL c o none).data) := by
    simp [Offers.into_request, String.data_append, hpq]
  have hql := queryCOL_getLast_amp c o hco
  have hqne : (queryCOL c o none).data ≠ [] := fun he => by simp [he] at hql
  apply uriQuery_getLast_amp
  · rw [hdata]; simp
  · rw [hdata]
    exact getLast?_append_of_eq (by rw [List.getLast?_append_cons,
      show ('?' :: (queryCOL c o none).data) = ['?'] ++ (queryCOL c o none).data from rfl,
      List.getLast?_append_of_ne_nil _ hqne, hql])


/-! ## Per-endpoint decode lemmas -/

theorem transactions_lenient_aux (w : UriWrap) (id : String)
    (hp : w.path = ["accounts", id, "transactions"]) :
    ∃ t, Transactions.try_from_wrap w = .ok t ∧
      (∀ v, List.lookup "limit" w.params = some v → parseU32? v = none → t.limit = none) ∧
      (∀ v, List.lookup "order" w.params = some v →
        Direction.fromStr? v = none → t.order = none) := by
  refine ⟨{ account_id := id, cursor := getStr w.params "cursor"
            order := getDirection w.params "order", limit := getU32 w.params "limit" },
    ?_, ?_, ?_⟩
  · unfold Transactions.try_from_wrap
    rw [hp]
    rfl
  · intro v hv hpv
    simp [getU32, hv, hpv]
  · intro v hv hpv
    simp [getDirection, hv, hpv]

theorem transactions_invalid_path_aux (w : UriWrap) :
    ((∃ t, Transactions.try_from_wrap w = .ok t) ↔
      ∃ id, w.path = ["accounts", id, "transactions"]) ∧
    ((∀ id, w.path ≠ ["accounts", id, "transactions"]) →
      Transactions.try_from_wrap w = .error .invalidPath) := by
  constructor
  · constructor
    · rintro ⟨t, ht⟩
      unfold Transactions.try_from_wrap at ht
      split at ht
      · next id heq => exact ⟨id, heq⟩
      · simp at ht
    · rintro ⟨id, hp⟩
      refine ⟨{ account_id := id, cursor := getStr w.params "cursor"
                order := getDirection w.params "order", limit := getU32 w.params "limit" }, ?_⟩
      unfold Transactions.try_from_wrap
      rw [hp]
      rfl
  · intro hne
    unfold Transactions.try_from_wrap
    split
    · next id heq => exact absurd heq (hne id)
    · rfl


theorem effects_lenient_aux (w : UriWrap) (id : String)
    (hp : w.path = ["accounts", id, "effects"]) :
    ∃ t, Effects.try_from_wrap w = .ok t ∧
      (∀ v, List.lookup "limit" w.params = some v → parseU32? v = none → t.limit = none) ∧
      (∀ v, List.lookup "order" w.params = some v →
        Direction.fromStr? v = none → t.order = none) := by
  refine ⟨{ account_id := id, cursor := getStr w.params "cursor"
            order := getDirection w.params "order", limit := getU32 w.params "limit" },
    ?_, ?_, ?_⟩
  · unfold Effects.try_from_wrap
    rw [hp]
    rfl
  · intro v hv hpv
    simp [getU32, hv, hpv]
  · intro v hv hpv
    simp [getDirection, hv, hpv]

theorem effects_invalid_path_aux (w : UriWrap) :
    ((∃ t, Effects.try_from_wrap w = .ok t) ↔
      ∃ id, w.path = ["accounts", id, "effects"]) ∧
    ((∀ id, w.path ≠ ["accounts", id, "effects"]) →
      Effects.try_from_wrap w = .error .invalidPath) := by
  constructor
  · constructor
    · rintro ⟨t, ht⟩
      unfold Effects.try_from_wrap at ht
      split at ht
      · next id heq => exact ⟨id, heq⟩
      · simp at ht
    · rintro ⟨id, hp⟩
      refine ⟨{ account_id := id, cursor := getStr w.params "cursor"
                order := getDirection w.params "order", limit := getU32 w.params "limit" }, ?_⟩
      unfold Effects.try_from_wrap
      rw [hp]
      rfl
  · intro hne
    unfold Effects.try_from_wrap
    split
    · next id heq => exact absurd heq (hne id)
    · rfl


theorem operations_lenient_aux (w : UriWrap) (id : String)
    (hp : w.path = ["accounts", id, "operations"]) :
    ∃ t, Operations.try_from_wrap w = .ok t ∧
      (∀ v, List.lookup "limit" w.params = some v → parseU32? v = none → t.limit = none) ∧
      (∀ v, List.lookup "order" w.params = some v →
        Direction.fromStr? v = none → t.order = none) := by
  refine ⟨{ account_id := id, cursor := getStr w.params "cursor"
            order := getDirection w.params "order", limit := getU32 w.params "limit" },
    ?_, ?_, ?_⟩
  · unfold Operations.try_from_wrap
    rw [hp]
    rfl
  · intro v hv hpv
    simp [getU32, hv, hpv]
  · intro v hv hpv
    simp [getDirection, hv, hpv]

theorem operations_invalid_path_aux (w : UriWrap) :
    ((∃ t, Operations.try_from_wrap w = .ok t) ↔
      ∃ id, w.path = ["accounts", id, "operations"]) ∧
    ((∀ id, w.path ≠ ["accounts", id, "operations"]) →
      Operations.try_from_wrap w = .error .invalidPath) := by
  constructor
  · constructor
    · rintro ⟨t, ht⟩
      unfold Operations.try_from_wrap at ht
      split at ht
      · next id heq => exact ⟨id, heq⟩
      · simp at ht
    · rintro ⟨id, hp⟩
      refine ⟨{ account_id := id, cursor := getStr w.params "cursor"
                order := getDirection w.params "order", limit := getU32 w.params "limit" }, ?_⟩
      unfold Operations.try_from_wrap
      rw [hp]
      rfl
  · intro hne
    unfold Operations.try_from_wrap
    split
    · next id heq => exact absurd heq (hne id)
    · rfl


theorem payments_lenient_aux (w : UriWrap) (id : String)
    (hp : w.path = ["accounts", id, "payments"]) :
    ∃ t, Payments.try_from_wrap w = .ok t ∧
      (∀ v, List.lookup "limit" w.params = some v → parseU32? v = none → t.limit = none) ∧
      (∀ v, List.lookup "order" w.params = some v →
        Direction.fromStr? v = none → t.order = none) := by
  refine ⟨{ account_id := id, cursor := getStr w.params "cursor"
            order := getDirection w.params "order", limit := getU32 w.params "limit" },
    ?_, ?_, ?_⟩
  · unfold Payments.try_from_wrap
    rw [hp]
    rfl
  · intro v hv hpv
    simp [getU32, hv, hpv]
  · intro v hv hpv
    simp [getDirection, hv, hpv]

theorem payments_invalid_path_aux (w : UriWrap) :
    ((∃ t, Payments.try_from_wrap w = .ok t) ↔
      ∃ id, w.path = ["accounts", id, "payments"]) ∧
    ((∀ id, w.path ≠ ["accounts", id, "payments"]) →
      Payments.try_from_wrap w = .error .invalidPath) := by
  constructor
  · constructor
    · rintro ⟨t, ht⟩
      unfold Payments.try_from_wrap at ht
      split at ht
      · next id heq => exact ⟨id, heq⟩
      · simp at ht
    · rintro ⟨id, hp⟩
      refine ⟨{ account_id := id, cursor := getStr w.params "cursor"
                order := getDirection w.params "order", limit := getU32 w.params "limit" }, ?_⟩
      unfold Payments.try_from_wrap
      rw [hp]
      rfl
  · intro hne
    unfold Payments.try_from_wrap
    split
    · next id heq => exact absurd heq (hne id)
    · rfl


theorem offers_lenient_aux (w : UriWrap) (id : String)
    (hp : w.path = ["accounts", id, "offers"]) :
    ∃ t, Offers.try_from_wrap w = .ok t ∧
      (∀ v, List.lookup "limit" w.params = some v → parseU32? v = none → t.limit = none) ∧
      (∀ v, List.lookup "order" w.params = some v →
        Direction.fromStr? v = none → t.order = none) := by
  refine ⟨{ account_id := id, cursor := getStr w.params "cursor"
            order := getDirection w.params "order", limit := getU32 w.params "limit" },
    ?_, ?_, ?_⟩
  · unfold Offers.try_from_wrap
    rw [hp]
    rfl
  · intro v hv hpv
    simp [getU32, hv, hpv]
  · intro v hv hpv
    simp [getDirection, hv, hpv]

theorem offers_invalid_path_aux (w : UriWrap) :
    ((∃ t, Offers.try_from_wrap w = .ok t) ↔
      ∃ id, w.path = ["accounts", id, "offers"]) ∧
    ((∀ id, w.path ≠ ["accounts", id, "offers"]) →
      Offers.try_from_wrap w = .error .invalidPath) := by
  constructor
  · constructor
    · rintro ⟨t, ht⟩
      unfold Offers.try_from_wrap at ht
      split at ht
      · next id heq => exact ⟨id, heq⟩
      · simp at ht
    · rintro ⟨id, hp⟩
      refine ⟨{ account_id := id, cursor := getStr w.params "cursor"
                order := getDirection w.params "order", limit := getU32 w.params "limit" }, ?_⟩
      unfold Offers.try_from_wrap
      rw [hp]
      rfl
  · intro hne
    unfold Offers.try_from_wrap
    split
    · next id heq => exact absurd heq (hne id)
    · rfl

/-! ## Claim theorems -/

/-- Claim C1, counterexample: `Operations::into_request` with cursor,
order and limit all set emits the query `order=desc&cursor=CURSOR&limit=123`
- the `order` parameter comes first, so the query is not the
cursor-order-limit string the claim requires. -/
theorem claim_C1_counterexample :
    uriQuery (((((Operations.new "abc123").with_cursor "CURSOR").with_order
        Direction.Desc).with_limit 123).into_request "https://www.google.com") =
      some "order=desc&cursor=CURSOR&limit=123" ∧
    uriQuery (((((Operations.new "abc123").with_cursor "CURSOR").with_order
        Direction.Desc).with_limit 123).into_request "https://www.google.com") ≠
      some "cursor=CURSOR&order=desc&limit=123" := by
  constructor
  · rfl
  · intro h
    rw [show uriQuery (((((Operations.new "abc123").with_cursor "CURSOR").with_order
        Direction.Desc).with_limit 123).into_request "https://www.google.com") =
      some "order=desc&cursor=CURSOR&limit=123" from rfl] at h
    simp at h

/-- Claim C1, amended: for every endpoint descriptor and any host and
account id free of `?`, `Transactions`, `Effects`, `Payments` and
`Offers` emit the present query parameters in the fixed order cursor,
order, limit, while `Operations` emits them in the order order, cursor,
limit; when no parameter is set no query is emitted. -/
theorem claim_C1_amended_param_order :
    (∀ (t : Transactions) (host : String), '?' ∉ host.data → '?' ∉ t.account_id.data →
      uriQuery (t.into_request host) =
        if t.has_query then some (queryCOL t.cursor t.order t.limit) else none) ∧
    (∀ (t : Effects) (host : String), '?' ∉ host.data → '?' ∉ t.account_id.data →
      uriQuery (t.into_request host) =
        if t.has_query then some (queryCOL t.cursor t.order t.limit) else none) ∧
    (∀ (t : Payments) (host : String), '?' ∉ host.data → '?' ∉ t.account_id.data →
      uriQuery (t.into_request host) =
        if t.has_query then some (queryCOL t.cursor t.order t.limit) else none) ∧
    (∀ (t : Offers) (host : String), '?' ∉ host.data → '?' ∉ t.account_id.data →
      uriQuery (t.into_request host) =
        if t.has_query then some (queryCOL t.cursor t.order t.limit) else none) ∧
    (∀ (t : Operations) (host : String), '?' ∉ host.data → '?' ∉ t.account_id.data →
      uriQuery (t.into_request host) =
        if t.has_query then some (queryOCL t.cursor t.order t.limit) else none) :=
  ⟨transactions_uriQuery_aux, effects_uriQuery_aux, payments_uriQuery_aux,
    offers_uriQuery_aux, operations_uriQuery_aux⟩

/-- Witness for C1's amended theorem at the builder chain from the
repository's unit test. -/
theorem claim_C1_witness :
    uriQuery (((((Transactions.new "abc123").with_cursor "CURSOR").with_order
        Direction.Desc).with_limit 123).into_request "https://www.google.com") =
      some "cursor=CURSOR&order=desc&limit=123" := by
  have h := claim_C1_amended_param_order.1
    ((((Transactions.new "abc123").with_cursor "CURSOR").with_order
      Direction.Desc).with_limit 123) "https://www.google.com" (by decide) (by decide)
  exact h.trans rfl

/-- Claim C2, counterexample: a cursor token containing `&` does not
survive the round trip.  For `Transactions::new("abc123").with_cursor("A&B")`
the `Uri::from_str` step accepts the constructed string and preserves
its path-and-query (every byte is URI-valid and there is no `#`), yet
decoding yields a descriptor whose cursor is `A`, not `A&B`. -/
theorem claim_C2_counterexample :
    pathAndQueryFromStr?
        (((Transactions.new "abc123").with_cursor "A&B").path_and_query) =
      some (((Transactions.new "abc123").with_cursor "A&B").path_and_query) ∧
    Transactions.try_from_uri
        (((Transactions.new "abc123").with_cursor "A&B").path_and_query) =
      .ok { account_id := "abc123", cursor := some "A", order := none, limit := none } ∧
    ({ account_id := "abc123", cursor := some "A", order := none, limit := none }
        : Transactions) ≠
      (Transactions.new "abc123").with_cursor "A&B" := by
  exact ⟨rfl, rfl, by decide⟩

/-- Claim C2, amended: for every descriptor built by the public builder
API whose account id is nonempty, free of `/`, and made of URI path
characters (RFC 3986 `pchar` - this excludes `?`, `#`, spaces and every
other URI-invalid byte), and whose cursor, when set, is made of URI
query characters other than `&` (again excluding `#` and URI-invalid
bytes; the limit being a `u32`): the URI built by `into_request` is the
host followed by the path-and-query, the `Uri::from_str` step accepts
it and preserves the path-and-query exactly (no `InvalidUri`, no
fragment truncation), and decoding that parsed path-and-query
reconstructs an equal descriptor - the host is ignored by decoding. -/
theorem claim_C2_amended_roundtrip :
    (∀ (t : Transactions) (host : String),
      t.account_id ≠ "" → '/' ∉ t.account_id.data →
      (∀ ch ∈ t.account_id.data, isPathChar ch) →
      (∀ s ∈ t.cursor, ∀ ch ∈ s.data, isQueryChar ch ∧ ch ≠ '&') →
      (∀ n ∈ t.limit, n < 2 ^ 32) →
      t.into_request host = host ++ t.path_and_query ∧
        pathAndQueryFromStr? t.path_and_query = some t.path_and_query ∧
        Transactions.try_from_uri t.path_and_query = .ok t) ∧
    (∀ (t : Effects) (host : String),
      t.account_id ≠ "" → '/' ∉ t.account_id.data →
      (∀ ch ∈ t.account_id.data, isPathChar ch) →
      (∀ s ∈ t.cursor, ∀ ch ∈ s.data, isQueryChar ch ∧ ch ≠ '&') →
      (∀ n ∈ t.limit, n < 2 ^ 32) →
      t.into_request host = host ++ t.path_and_query ∧
        pathAndQueryFromStr? t.path_and_query = some t.path_and_query ∧
        Effects.try_from_uri t.path_and_query = .ok t) ∧
    (∀ (t : Operations) (host : String),
      t.account_id ≠ "" → '/' ∉ t.account_id.data →
      (∀ ch ∈ t.account_id.data, isPathChar ch) →
      (∀ s ∈ t.cursor, ∀ ch ∈ s.data, isQueryChar ch ∧ ch ≠ '&') →
      (∀ n ∈ t.limit, n < 2 ^ 32) →
      t.into_request host = host ++ t.path_and_query ∧
        pathAndQueryFromStr? t.path_and_query = some t.path_and_query ∧
        Operations.try_from_uri t.path_and_query = .ok t) ∧
    (∀ (t : Payments) (host : String),
      t.account_id ≠ "" → '/' ∉ t.account_id.data →
      (∀ ch ∈ t.account_id.data, isPathChar ch) →
      (∀ s ∈ t.cursor, ∀ ch ∈ s.data, isQueryChar ch ∧ ch ≠ '&') →
      (∀ n ∈ t.limit, n < 2 ^ 32) →
      t.into_request host = host ++ t.path_and_query ∧
        pathAndQueryFromStr? t.path_and_query = some t.path_and_query ∧
        Payments.try_from_uri t.path_and_query = .ok t) ∧
    (∀ (t : Offers) (host : String),
      t.account_id ≠ "" → '/' ∉ t.account_id.data →
      (∀ ch ∈ t.account_id.data, isPathChar ch) →
      (∀ s ∈ t.cursor, ∀ ch ∈ s.data, isQueryChar ch ∧ ch ≠ '&') →
      (∀ n ∈ t.limit, n < 2 ^ 32) →
      t.into_request host = host ++ t.path_and_query ∧
        pathAndQueryFromStr? t.path_and_query = some t.path_and_query ∧
        Offers.try_from_uri t.path_and_query = .ok t) :=
  ⟨fun t _ h1 h2 h3 hc hl =>
    have h := transactions_uri_roundtrip_aux t ⟨h1, h2, h3⟩ hc hl
    ⟨rfl, h.1, h.2⟩,
   fun t _ h1 h2 h3 hc hl =>
    have h := effects_uri_roundtrip_aux t ⟨h1, h2, h3⟩ hc hl
    ⟨rfl, h.1, h.2⟩,
   fun t _ h1 h2 h3 hc hl =>
    have h := operations_uri_roundtrip_aux t ⟨h1, h2, h3⟩ hc hl
    ⟨rfl, h.1, h.2⟩,
   fun t _ h1 h2 h3 hc hl =>
    have h := payments_uri_roundtrip_aux t ⟨h1, h2, h3⟩ hc hl
    ⟨rfl, h.1, h.2⟩,
   fun t _ h1 h2 h3 hc hl =>
    have h := offers_uri_roundtrip_aux t ⟨h1, h2, h3⟩ hc hl
    ⟨rfl, h.1, h.2⟩⟩

/-- Witness for C2's amended theorem at a concrete descriptor: the
`Uri::from_str` step preserves the path-and-query and decoding it
reconstructs the descriptor. -/
theorem claim_C2_witness :
    pathAndQueryFromStr?
        (((Transactions.new "abc123").with_limit 200).path_and_query) =
      some (((Transactions.new "abc123").with_limit 200).path_and_query) ∧
    Transactions.try_from_uri
        (((Transactions.new "abc123").with_limit 200).path_and_query) =
      .ok ((Transactions.new "abc123").with_limit 200) :=
  (claim_C2_amended_roundtrip.1 ((Transactions.new "abc123").with_limit 200) ""
    (by decide) (by decide) (by decide)
    (fun s hs => nomatch hs)
    (fun n hn => by injection hn with h; exact h ▸ (by decide))).2

/-- Claim C3: the claim says a response body with an unknown
`asset_type` tag yields a `Decode` error for that fetch rather than
aborting.  `AssetIdentifier`'s own deserialization indeed returns the
error, but `Asset::deserialize` calls `.unwrap()` on that `Result`, so
deserializing an `Asset` whose tag is `bogus` panics instead of
returning an error value. -/
theorem claim_C3_asset_decode_panics :
    AssetIdentifier.deserialize
        { asset_type := "bogus", asset_code := none, asset_issuer := none } =
      .err "Invalid Asset Type." ∧
    Asset.deserialize
        { asset_type := "bogus", asset_code := none, asset_issuer := none,
          amount := { raw := 1000000000 }, num_accounts := 91547871,
          flags := { auth_required := false, auth_revocable := true } } =
      .panicked :=
  ⟨rfl, rfl⟩

/-- Claim C4: serializing `AssetIdentifier::Native` emits exactly the
object with the single field `asset_type = native` (the code and issuer
fields are omitted, not null), and every non-native identifier
round-trips through serialize then deserialize unchanged. -/
theorem claim_C4_tagged_encoding :
    ((AssetIdentifier.serializeRep .Native).jsonFields = [("asset_type", "native")] ∧
      renderObj (AssetIdentifier.serializeRep .Native).jsonFields =
        "\x7b\"asset_type\":\"native\"\x7d") ∧
    (∀ a : AssetIdentifier, a.is_native = false →
      AssetIdentifier.deserialize a.serializeRep = .ok a) := by
  refine ⟨⟨rfl, rfl⟩, ?_⟩
  intro a ha
  cases a with
  | Native => exact absurd ha (by decide)
  | CreditAlphanum4 x => rfl
  | CreditAlphanum12 x => rfl

/-- Witness for C4 at the non-native asset from the repository's test
fixture. -/
theorem claim_C4_witness :
    AssetIdentifier.deserialize
        (AssetIdentifier.alphanum4 "USD"
          "GBAUUA74H4XOQYRSOW2RZUA4QL5PB37U3JS5NE3RTB2ELJVMIF5RLMAG").serializeRep =
      .ok (AssetIdentifier.alphanum4 "USD"
        "GBAUUA74H4XOQYRSOW2RZUA4QL5PB37U3JS5NE3RTB2ELJVMIF5RLMAG") :=
  claim_C4_tagged_encoding.2
    (AssetIdentifier.alphanum4 "USD"
      "GBAUUA74H4XOQYRSOW2RZUA4QL5PB37U3JS5NE3RTB2ELJVMIF5RLMAG") rfl

/-- Claim C5, counterexample: a descriptor with no cursor, order or
limit set but an account id containing `?` produces a URI whose query
component is present (`b/transactions`), so the claim's universal
statement fails. -/
theorem claim_C5_counterexample :
    uriQuery ((Transactions.new "a?b").into_request
        "https://horizon-testnet.stellar.org") = some "b/transactions" ∧
    uriQuery ((Transactions.new "a?b").into_request
        "https://horizon-testnet.stellar.org") ≠ none := by
  refine ⟨rfl, ?_⟩
  intro h
  rw [show uriQuery ((Transactions.new "a?b").into_request
      "https://horizon-testnet.stellar.org") = some "b/transactions" from rfl] at h
  simp at h

/-- Claim C5, amended: for every endpoint descriptor with none of
cursor, order, limit set, and host and account id free of `?`,
`into_request` produces a URI with no query component at all (absent,
not empty). -/
theorem claim_C5_amended_no_query :
    (∀ (t : Transactions) (host : String), '?' ∉ host.data → '?' ∉ t.account_id.data →
      t.cursor = none → t.order = none → t.limit = none →
      uriQuery (t.into_request host) = none) ∧
    (∀ (t : Effects) (host : String), '?' ∉ host.data → '?' ∉ t.account_id.data →
      t.cursor = none → t.order = none → t.limit = none →
      uriQuery (t.into_request host) = none) ∧
    (∀ (t : Operations) (host : String), '?' ∉ host.data → '?' ∉ t.account_id.data →
      t.cursor = none → t.order = none → t.limit = none →
      uriQuery (t.into_request host) = none) ∧
    (∀ (t : Payments) (host : String), '?' ∉ host.data → '?' ∉ t.account_id.data →
      t.cursor = none → t.order = none → t.limit = none →
      uriQuery (t.into_request host) = none) ∧
    (∀ (t : Offers) (host : String), '?' ∉ host.data → '?' ∉ t.account_id.data →
      t.cursor = none → t.order = none → t.limit = none →
      uriQuery (t.into_request host) = none) := by
  refine ⟨?_, ?_, ?_, ?_, ?_⟩
  · intro t host hh hid hc ho hl
    have hq : t.has_query = false := by
      simp [Transactions.has_query, hc, ho, hl]
    rw [transactions_uriQuery_aux t host hh hid, hq]
    rfl
  · intro t host hh hid hc ho hl
    have hq : t.has_query = false := by
      simp [Effects.has_query, hc, ho, hl]
    rw [effects_uriQuery_aux t host hh hid, hq]
    rfl
  · intro t host hh hid hc ho hl
    have hq : t.has_query = false := by
      simp [Operations.has_query, hc, ho, hl]
    rw [operations_uriQuery_aux t host hh hid, hq]
    rfl
  · intro t host hh hid hc ho hl
    have hq : t.has_query = false := by
      simp [Payments.has_query, hc, ho, hl]
    rw [payments_uriQuery_aux t host hh hid, hq]
    rfl
  · intro t host hh hid hc ho hl
    have hq : t.has_query = false := by
      simp [Offers.has_query, hc, ho, hl]
    rw [offers_uriQuery_aux t host hh hid, hq]
    rfl

/-- Witness for C5's amended theorem at a concrete descriptor. -/
theorem claim_C5_witness :
    uriQuery ((Transactions.new "abc123").into_request
        "https://horizon-testnet.stellar.org") = none :=
  claim_C5_amended_no_query.1 (Transactions.new "abc123")
    "https://horizon-testnet.stellar.org" (by decide) (by decide) rfl rfl rfl

/-- Claim C6: for every inbound URI wrap whose path matches a known
collection template, decoding succeeds, and a query parameter value
that fails to parse as its expected type (a non-numeric `limit`, an
unrecognised `order`) leaves that field absent rather than surfacing an
error. -/
theorem claim_C6_lenient_params :
    (∀ (w : UriWrap) (id : String), w.path = ["accounts", id, "transactions"] →
      ∃ t, Transactions.try_from_wrap w = .ok t ∧
        (∀ v, List.lookup "limit" w.params = some v → parseU32? v = none →
          t.limit = none) ∧
        (∀ v, List.lookup "order" w.params = some v → Direction.fromStr? v = none →
          t.order = none)) ∧
    (∀ (w : UriWrap) (id : String), w.path = ["accounts", id, "effects"] →
      ∃ t, Effects.try_from_wrap w = .ok t ∧
        (∀ v, List.lookup "limit" w.params = some v → parseU32? v = none →
          t.limit = none) ∧
        (∀ v, List.lookup "order" w.params = some v → Direction.fromStr? v = none →
          t.order = none)) ∧
    (∀ (w : UriWrap) (id : String), w.path = ["accounts", id, "operations"] →
      ∃ t, Operations.try_from_wrap w = .ok t ∧
        (∀ v, List.lookup "limit" w.params = some v → parseU32? v = none →
          t.limit = none) ∧
        (∀ v, List.lookup "order" w.params = some v → Direction.fromStr? v = none →
          t.order = none)) ∧
    (∀ (w : UriWrap) (id : String), w.path = ["accounts", id, "payments"] →
      ∃ t, Payments.try_from_wrap w = .ok t ∧
        (∀ v, List.lookup "limit" w.params = some v → parseU32? v = none →
          t.limit = none) ∧
        (∀ v, List.lookup "order" w.params = some v → Direction.fromStr? v = none →
          t.order = none)) ∧
    (∀ (w : UriWrap) (id : String), w.path = ["accounts", id, "offers"] →
      ∃ t, Offers.try_from_wrap w = .ok t ∧
        (∀ v, List.lookup "limit" w.params = some v → parseU32? v = none →
          t.limit = none) ∧
        (∀ v, List.lookup "order" w.params = some v → Direction.fromStr? v = none →
          t.order = none)) :=
  ⟨transactions_lenient_aux, effects_lenient_aux, operations_lenient_aux,
    payments_lenient_aux, offers_lenient_aux⟩

/-- Witness for C6 at the wrap of a URI with a non-numeric limit. -/
theorem claim_C6_witness :
    ∃ t, Transactions.try_from_wrap
        (UriWrap.ofString "/accounts/abc123/transactions?limit=abc") = .ok t ∧
      (∀ v, List.lookup "limit"
          (UriWrap.ofString "/accounts/abc123/transactions?limit=abc").params = some v →
        parseU32? v = none → t.limit = none) ∧
      (∀ v, List.lookup "order"
          (UriWrap.ofString "/accounts/abc123/transactions?limit=abc").params = some v →
        Direction.fromStr? v = none → t.order = none) :=
  claim_C6_lenient_params.1
    (UriWrap.ofString "/accounts/abc123/transactions?limit=abc") "abc123" (by decide)

/-- Claim C7: decoding a URI wrap succeeds exactly when its path
segments match the endpoint's collection template, and every
non-matching path yields the `InvalidPath` error. -/
theorem claim_C7_invalid_path :
    (∀ w : UriWrap,
      ((∃ t, Transactions.try_from_wrap w = .ok t) ↔
        ∃ id, w.path = ["accounts", id, "transactions"]) ∧
      ((∀ id, w.path ≠ ["accounts", id, "transactions"]) →
        Transactions.try_from_wrap w = .error .invalidPath)) ∧
    (∀ w : UriWrap,
      ((∃ t, Effects.try_from_wrap w = .ok t) ↔
        ∃ id, w.path = ["accounts", id, "effects"]) ∧
      ((∀ id, w.path ≠ ["accounts", id, "effects"]) →
        Effects.try_from_wrap w = .error .invalidPath)) ∧
    (∀ w : UriWrap,
      ((∃ t, Operations.try_from_wrap w = .ok t) ↔
        ∃ id, w.path = ["accounts", id, "operations"]) ∧
      ((∀ id, w.path ≠ ["accounts", id, "operations"]) →
        Operations.try_from_wrap w = .error .invalidPath)) ∧
    (∀ w : UriWrap,
      ((∃ t, Payments.try_from_wrap w = .ok t) ↔
        ∃ id, w.path = ["accounts", id, "payments"]) ∧
      ((∀ id, w.path ≠ ["accounts", id, "payments"]) →
        Payments.try_from_wrap w = .error .invalidPath)) ∧
    (∀ w : UriWrap,
      ((∃ t, Offers.try_from_wrap w = .ok t) ↔
        ∃ id, w.path = ["accounts", id, "offers"]) ∧
      ((∀ id, w.path ≠ ["accounts", id, "offers"]) →
        Offers.try_from_wrap w = .error .invalidPath)) :=
  ⟨transactions_invalid_path_aux, effects_invalid_path_aux, operations_invalid_path_aux,
    payments_invalid_path_aux, offers_invalid_path_aux⟩

/-- Witness for C7 at the wrap of a URI with a non-matching path. -/
theorem claim_C7_witness :
    Transactions.try_from_wrap (UriWrap.ofString "/accounts/abc123/nope") =
      .error .invalidPath :=
  (claim_C7_invalid_path.1 (UriWrap.ofString "/accounts/abc123/nope")).2
    (fun id h => by
      rw [show (UriWrap.ofString "/accounts/abc123/nope").path =
        ["accounts", "abc123", "nope"] from rfl] at h
      simp at h)

/-- Claim C8: `AssetIdentifier::new` with a credit tag and a missing
code or issuer panics (unwrap of `None`) instead of returning `Err`,
and it returns `Err` exactly for tags outside the three known ones. -/
theorem claim_C8_new_panics :
    (∀ (t : String) (c i : Option String),
      (t = "credit_alphanum4" ∨ t = "credit_alphanum12") → (c = none ∨ i = none) →
      AssetIdentifier.new t c i = .panicked) ∧
    (∀ (t : String) (c i : Option String),
      (∃ m, AssetIdentifier.new t c i = .err m) ↔
        (t ≠ "native" ∧ t ≠ "credit_alphanum4" ∧ t ≠ "credit_alphanum12")) := by
  constructor
  · rintro t c i (rfl | rfl) (rfl | rfl)
    · cases i <;> rfl
    · cases c <;> rfl
    · cases i <;> rfl
    · cases c <;> rfl
  · intro t c i
    constructor
    · rintro ⟨m, hm⟩
      by_cases h1 : t = "native"
      · subst h1; simp [AssetIdentifier.new] at hm
      by_cases h2 : t = "credit_alphanum4"
      · subst h2
        rcases c with _ | c0 <;> rcases i with _ | i0 <;>
          simp [AssetIdentifier.new] at hm
      by_cases h3 : t = "credit_alphanum12"
      · subst h3
        rcases c with _ | c0 <;> rcases i with _ | i0 <;>
          simp [AssetIdentifier.new] at hm
      exact ⟨h1, h2, h3⟩
    · rintro ⟨h1, h2, h3⟩
      refine ⟨"Invalid Asset Type.", ?_⟩
      unfold AssetIdentifier.new
      split
      · exact absurd rfl h1
      · exact absurd rfl h2
      · exact absurd rfl h3
      · rfl

/-- Witness for C8 at a concrete panicking input. -/
theorem claim_C8_witness :
    AssetIdentifier.new "credit_alphanum4" none (some "ISSUER") = .panicked :=
  claim_C8_new_panics.1 "credit_alphanum4" none (some "ISSUER") (Or.inl rfl) (Or.inl rfl)

/-- Claim C9: on the native identifier `code()` and `issuer()` return
the placeholders `XLM` and `Stellar Foundation` while `asset_code()`
and `asset_issuer()` return `None`; on every non-native identifier the
two accessor families agree on the stored code and issuer. -/
theorem claim_C9_accessors :
    (AssetIdentifier.Native.code = "XLM" ∧
      AssetIdentifier.Native.issuer = "Stellar Foundation" ∧
      AssetIdentifier.Native.asset_code = none ∧
      AssetIdentifier.Native.asset_issuer = none) ∧
    (∀ a : AssetIdentifier, a.is_native = false →
      a.asset_code = some a.code ∧ a.asset_issuer = some a.issuer) := by
  refine ⟨⟨rfl, rfl, rfl, rfl⟩, ?_⟩
  intro a ha
  cases a with
  | Native => exact absurd ha (by decide)
  | CreditAlphanum4 x => exact ⟨rfl, rfl⟩
  | CreditAlphanum12 x => exact ⟨rfl, rfl⟩

/-- Witness for C9 at a concrete non-native identifier. -/
theorem claim_C9_witness :
    (AssetIdentifier.alphanum12 "ABCDEFGH" "ISSUER").asset_code =
        some (AssetIdentifier.alphanum12 "ABCDEFGH" "ISSUER").code ∧
      (AssetIdentifier.alphanum12 "ABCDEFGH" "ISSUER").asset_issuer =
        some (AssetIdentifier.alphanum12 "ABCDEFGH" "ISSUER").issuer :=
  claim_C9_accessors.2 (AssetIdentifier.alphanum12 "ABCDEFGH" "ISSUER") rfl

/-- Claim C10: whenever cursor or order is set but limit is not, the
query component produced by `into_request` ends in a trailing `&`
separator, for each of the five endpoints. -/
theorem claim_C10_trailing_amp :
    (∀ (t : Transactions) (host : String),
      t.limit = none → t.cursor.isSome || t.order.isSome →
      ∃ q : String, uriQuery (t.into_request host) = some q ∧
        q.data.getLast? = some '&') ∧
    (∀ (t : Effects) (host : String),
      t.limit = none → t.cursor.isSome || t.order.isSome →
      ∃ q : String, uriQuery (t.into_request host) = some q ∧
        q.data.getLast? = some '&') ∧
    (∀ (t : Operations) (host : String),
      t.limit = none → t.cursor.isSome || t.order.isSome →
      ∃ q : String, uriQuery (t.into_request host) = some q ∧
        q.data.getLast? = some '&') ∧
    (∀ (t : Payments) (host : String),
      t.limit = none → t.cursor.isSome || t.order.isSome →
      ∃ q : String, uriQuery (t.into_request host) = some q ∧
        q.data.getLast? = some '&') ∧
    (∀ (t : Offers) (host : String),
      t.limit = none → t.cursor.isSome || t.order.isSome →
      ∃ q : String, uriQuery (t.into_request host) = some q ∧
        q.data.getLast? = some '&') :=
  ⟨transactions_trailing_aux, effects_trailing_aux, operations_trailing_aux,
    payments_trailing_aux, offers_trailing_aux⟩

/-- Witness for C10 at a concrete descriptor with only a cursor. -/
theorem claim_C10_witness :
    ∃ q : String, uriQuery (((Transactions.new "abc123").with_cursor "TOKEN").into_request
        "https://horizon-testnet.stellar.org") = some q ∧
      q.data.getLast? = some '&' :=
  claim_C10_trailing_amp.1 ((Transactions.new "abc123").with_cursor "TOKEN")
    "https://horizon-testnet.stellar.org" rfl rfl

end StellarSdk
